import Mathlib

/-!
Verification of the per-folder dirty block engine
(`libkbfs/folder_block_ops.go`) against its specification.

The Go source is shallowly embedded: pure decision logic is translated
directly, the mutable `folderBlockOps` struct becomes an explicit state
record (`FboState`) threaded through the operations, Go maps become
association lists, and fallible calls return `Except`/`Option` errors.
Collaborators whose implementation lives outside the provided source file
(the dirty-file registry `dirty_file.go`, the file/dir data adapters,
the node cache, the caches) are modelled from the specification, either
as abstract record fields or as oracle inputs carrying the outcome of
the external call; each such definition is marked in its doc comment.
-/

set_option autoImplicit false

namespace KBFS

/-- Decidable equality for `Except`, used to evaluate witnesses. -/
instance exceptDecEq {ε α : Type} [DecidableEq ε] [DecidableEq α] :
    DecidableEq (Except ε α) := fun x y =>
  match x, y with
  | .ok a, .ok b =>
    if h : a = b then .isTrue (by rw [h])
    else .isFalse (by intro hc; injection hc; contradiction)
  | .error a, .error b =>
    if h : a = b then .isTrue (by rw [h])
    else .isFalse (by intro hc; injection hc; contradiction)
  | .ok _, .error _ => .isFalse (by intro hc; exact Except.noConfusion hc)
  | .error _, .ok _ => .isFalse (by intro hc; exact Except.noConfusion hc)

/-! ## Association-list helpers (Go `map` embedding) -/

/-- Lookup in an association list; Go map indexing `m[k]` (found case). -/
def alookup {κ α : Type} [DecidableEq κ] : List (κ × α) → κ → Option α
  | [], _ => none
  | (k', v) :: rest, k => if k' = k then some v else alookup rest k

/-- Go map assignment `m[k] = v` (insert or replace). -/
def aupsert {κ α : Type} [DecidableEq κ] : List (κ × α) → κ → α → List (κ × α)
  | [], k, v => [(k, v)]
  | (k', v') :: rest, k, v =>
    if k' = k then (k, v) :: rest else (k', v') :: aupsert rest k v

/-- Go `delete(m, k)`. -/
def aerase {κ α : Type} [DecidableEq κ] (m : List (κ × α)) (k : κ) :
    List (κ × α) :=
  m.filter (fun kv => kv.1 ≠ k)

/-- Go map update of an existing entry in place (no-op when absent);
used for mutations through a pointer obtained from a map lookup. -/
def aupdate {κ α : Type} [DecidableEq κ] : List (κ × α) → κ → (α → α) →
    List (κ × α)
  | [], _, _ => []
  | (k', v) :: rest, k, f =>
    if k' = k then (k', f v) :: aupdate rest k f
    else (k', v) :: aupdate rest k f

/-! ## Data model (`BlockPointer`, `BlockRef`, `DirEntry`, paths, blocks) -/

/-- The (ID, ref-nonce) pair used for identity across pointer updates. -/
structure BlockRef where
  id : Nat
  refNonce : Nat
deriving DecidableEq, Repr

/-- The primary key for a block.  Only the fields the verified claims
depend on are carried: the ID, the ref-nonce, and validity. -/
structure BlockPointer where
  id : Nat := 0
  refNonce : Nat := 0
  valid : Bool := false
deriving DecidableEq, Repr

def BlockPointer.Ref (p : BlockPointer) : BlockRef := ⟨p.id, p.refNonce⟩

def BlockPointer.IsValid (p : BlockPointer) : Bool := p.valid

def BlockPointer.IsInitialized (p : BlockPointer) : Bool := p.id ≠ 0

/-- A pointer paired with its encoded (ciphertext) size. -/
structure BlockInfo where
  ptr : BlockPointer
  encodedSize : Nat
deriving DecidableEq, Repr

inductive EntryType where
  | File
  | Exec
  | Dir
  | Sym
deriving DecidableEq, Repr

/-- A directory entry. -/
structure DirEntry where
  info : BlockInfo := {ptr := {}, encodedSize := 0}
  typ : EntryType := .File
  size : Nat := 0
  mtime : Int := 0
  ctime : Int := 0
deriving DecidableEq, Repr

def DirEntry.Ref (de : DirEntry) : BlockRef := de.info.ptr.Ref

def DirEntry.IsInitialized (de : DirEntry) : Bool := de.info.ptr.IsInitialized

/-- One component of a path: a pointer plus the entry name. -/
structure PathNode where
  ptr : BlockPointer
  name : String
deriving DecidableEq, Repr

/-- Modelled from the spec: a path from the TLF root to an entry
(`path` in the source; `path.go` is not under `src/`). -/
structure KbfsPath where
  nodes : List PathNode
deriving DecidableEq, Repr

def KbfsPath.tailPointer (p : KbfsPath) : BlockPointer :=
  ((p.nodes.getLast?).map PathNode.ptr).getD {}

def KbfsPath.tailRef (p : KbfsPath) : BlockRef := p.tailPointer.Ref

def KbfsPath.tailName (p : KbfsPath) : String :=
  ((p.nodes.getLast?).map PathNode.name).getD ""

def KbfsPath.isValid (p : KbfsPath) : Bool :=
  !p.nodes.isEmpty && p.nodes.all (fun n => n.ptr.IsValid)

def KbfsPath.parentPath (p : KbfsPath) : KbfsPath := ⟨p.nodes.dropLast⟩

def KbfsPath.hasValidParent (p : KbfsPath) : Bool :=
  decide (2 ≤ p.nodes.length) && p.parentPath.isValid

/-- A direct file block; only the contents length matters for the
verified claims about the truncate decision and copy-on-write. -/
structure FileBlock where
  contents : List Nat := []
  isInd : Bool := false
deriving DecidableEq, Repr

/-- `FileBlock.DeepCopy`: a fresh block value with the same contents. -/
def FileBlock.DeepCopy (b : FileBlock) : FileBlock :=
  {contents := b.contents, isInd := b.isInd}

/-! ## Errors -/

/-- An engine/collaborator error.  `isRecoverableBlockError` and
`isRecoverableBlockErrorForRemoval` live in repository code outside
`src/`; they are modelled from the spec as abstract classification bits
carried on the error value itself. -/
structure EngineErr where
  code : Nat := 0
  recoverable : Bool := false
  recoverableForRemoval : Bool := false
deriving DecidableEq, Repr

def isRecoverableBlockError (e : EngineErr) : Bool := e.recoverable

def isRecoverableBlockErrorForRemoval (e : EngineErr) : Bool :=
  e.recoverableForRemoval

/-! ## Sync bookkeeping (`syncOp`, `syncInfo`, `dirtyFile`, deferred state) -/

/-- A write range (`WriteRange{Off, Len}`); a truncate is represented as
a range with `len = 0`, as in the source's `addTruncate`. -/
structure WriteRange where
  off : Nat := 0
  len : Nat := 0
deriving DecidableEq, Repr

/-- The accumulating sync op.  `writes` holds the `WriteRange`s appended
by `addWrite`/`addTruncate`; `updates` stands for the op's block-update
state cleared by `resetUpdateState`. -/
structure SyncOp where
  writes : List WriteRange := []
  updates : List (BlockPointer × BlockPointer) := []
deriving DecidableEq, Repr

/-- Modelled from the spec (§4.5.1): `syncOp.addWrite` appends a
`WriteRange{off,len}` and returns it (`ops.go` is not under `src/`). -/
def SyncOp.addWrite (op : SyncOp) (off len : Nat) : WriteRange × SyncOp :=
  let wr : WriteRange := {off := off, len := len}
  (wr, {op with writes := op.writes ++ [wr]})

/-- Modelled from the spec: `syncOp.addTruncate` appends a zero-length
range at the new size and returns it. -/
def SyncOp.addTruncate (op : SyncOp) (size : Nat) : WriteRange × SyncOp :=
  let wr : WriteRange := {off := size, len := 0}
  (wr, {op with writes := op.writes ++ [wr]})

/-- Modelled from the spec (§4.6.3): reset the op's update state so it
can be reused. -/
def SyncOp.resetUpdateState (op : SyncOp) : SyncOp := {op with updates := []}

/-- Per-file sync info (`syncInfo`).  `toCleanIfUnused` is kept as a
count of queued `mdToCleanIfUnused` entries; `bps` as an opaque tag. -/
structure SyncInfo where
  oldInfo : BlockInfo := {ptr := {}, encodedSize := 0}
  op : SyncOp := {}
  unrefs : List BlockInfo := []
  bps : Option Nat := none
  refBytes : Nat := 0
  unrefBytes : Nat := 0
  toCleanIfUnused : Nat := 0
deriving DecidableEq, Repr

/-- Modelled from the spec (§3 DirtyFile; `dirty_file.go` is not under
`src/`): per-tail-pointer dirty state.  `needsCopyBlocks` carries the
abstract outcome of `blockNeedsCopy`; `finishSyncOk` the abstract
outcome of `finishSync`; `errListeners` the subscribed listener ids. -/
structure DirtyFile where
  dirtyBlocks : List BlockPointer := []
  syncingBlocks : List BlockPointer := []
  orphanedBlocks : List BlockPointer := []
  needsCopyBlocks : List BlockPointer := []
  notYetSyncingBytes : Int := 0
  deferredNewBytes : Int := 0
  errListeners : List Nat := []
  finishSyncOk : Bool := true
deriving DecidableEq, Repr

def DirtyFile.blockNeedsCopy (df : DirtyFile) (ptr : BlockPointer) : Bool :=
  df.needsCopyBlocks.contains ptr

def DirtyFile.updateNotYetSyncingBytes (df : DirtyFile) (n : Int) : DirtyFile :=
  {df with notYetSyncingBytes := df.notYetSyncingBytes + n}

def DirtyFile.addDeferredNewBytes (df : DirtyFile) (n : Int) : DirtyFile :=
  {df with deferredNewBytes := df.deferredNewBytes + n}

def DirtyFile.isBlockOrphaned (df : DirtyFile) (ptr : BlockPointer) : Bool :=
  df.orphanedBlocks.contains ptr

def DirtyFile.setBlockOrphaned (df : DirtyFile) (ptr : BlockPointer)
    (orphaned : Bool) : DirtyFile :=
  if orphaned then
    {df with orphanedBlocks := df.orphanedBlocks ++ [ptr]}
  else
    {df with orphanedBlocks := df.orphanedBlocks.filter (fun q => q ≠ ptr)}

/-- Modelled from the spec (§4.6.3): syncing blocks go back to merely
dirty. -/
def DirtyFile.resetSyncingBlocksToDirty (df : DirtyFile) : DirtyFile :=
  {df with dirtyBlocks := df.dirtyBlocks ++ df.syncingBlocks,
           syncingBlocks := []}

/-- A deferred write/truncate queued while a sync is in flight.  The Go
code stores a replay closure; the closure is modelled by its recorded
byte count and its eventual replay outcome. -/
structure DeferredWrite where
  newlyDirtiedChildBytes : Int := 0
  replayErr : Option EngineErr := none
deriving DecidableEq, Repr

/-- Per-file deferred operations (`deferredState`). -/
structure DeferredState where
  writes : List DeferredWrite := []
  dirtyDeletes : List BlockPointer := []
  waitBytes : Int := 0
deriving DecidableEq, Repr

/-! ## External caches and the node cache -/

/-- The dirty block cache, an external collaborator: the set of dirty
pointers for this TLF/branch, plus the abstract set of pointers whose
`Delete` call fails. -/
structure DirtyBcacheModel where
  dirty : List BlockPointer := []
  deleteErrs : List BlockPointer := []
deriving DecidableEq, Repr

def DirtyBcacheModel.IsDirty (c : DirtyBcacheModel) (ptr : BlockPointer) :
    Bool :=
  c.dirty.contains ptr

def DirtyBcacheModel.Delete (c : DirtyBcacheModel) (ptr : BlockPointer) :
    Except EngineErr DirtyBcacheModel :=
  if c.deleteErrs.contains ptr then
    .error {code := 100}
  else
    .ok {c with dirty := c.dirty.filter (fun q => q ≠ ptr)}

/-- Modelled from the spec (§6 NodeCache): one cached node. -/
structure NodeEntry where
  nodeId : Nat
  ref : BlockRef
  pathNodes : List PathNode
  unlinked : Bool := false
  unlinkedDe : DirEntry := {}
deriving DecidableEq, Repr

/-- Modelled from the spec (§6 NodeCache): the node cache contents. -/
structure NodeCacheModel where
  entries : List NodeEntry := []
deriving DecidableEq, Repr

def NodeCacheModel.get (nc : NodeCacheModel) (ref : BlockRef) :
    Option NodeEntry :=
  nc.entries.find? (fun e => e.ref = ref)

def NodeCacheModel.pathFromNode (e : NodeEntry) : KbfsPath := ⟨e.pathNodes⟩

/-- `NodeCache.Unlink(ref, path, de)`. -/
def NodeCacheModel.unlink (nc : NodeCacheModel) (ref : BlockRef)
    (de : DirEntry) : NodeCacheModel :=
  ⟨nc.entries.map (fun e =>
    if e.ref = ref then {e with unlinked := true, unlinkedDe := de} else e)⟩

/-- `NodeCache.Move(ref, newParent, name)`: re-root the node's cached
path under the new parent with the new name. -/
def NodeCacheModel.move (nc : NodeCacheModel) (ref : BlockRef)
    (newParent : Option NodeEntry) (name : String) : NodeCacheModel :=
  match newParent with
  | none => nc
  | some par =>
    ⟨nc.entries.map (fun e =>
      if e.ref = ref then
        {e with pathNodes :=
          par.pathNodes ++ [{ptr := ((e.pathNodes.getLast?).map
            PathNode.ptr).getD {}, name := name}]}
      else e)⟩

/-- `NodeCache.UpdatePointer(oldRef, newPtr)`. -/
def NodeCacheModel.updatePointer (nc : NodeCacheModel) (oldRef : BlockRef)
    (newPtr : BlockPointer) : NodeCacheModel :=
  ⟨nc.entries.map (fun e =>
    if e.ref = oldRef then
      {e with ref := newPtr.Ref,
              pathNodes := e.pathNodes.dropLast ++
                (match e.pathNodes.getLast? with
                 | some pn => [{pn with ptr := newPtr}]
                 | none => [])}
    else e)⟩

/-! ## The engine state (`folderBlockOps` fields under `blockLock`) -/

/-- The state of `folderBlockOps` that the verified operations read and
write, together with the models of the external caches they touch. -/
structure FboState where
  dirtyFiles : List (BlockPointer × DirtyFile) := []
  unrefCache : List (BlockRef × SyncInfo) := []
  dirtyDirs : List (BlockPointer × List BlockInfo) := []
  dirtyRootDirEntry : Option DirEntry := none
  chargedTo : Option Nat := none
  deferred : List (BlockRef × DeferredState) := []
  doDeferWrite : Bool := false
  dirtyBcache : DirtyBcacheModel := {}
  cleanCachePermanentIDs : List Nat := []
  dirContents : List (BlockPointer × List (String × DirEntry)) := []
  nodeCache : Option NodeCacheModel := none
deriving DecidableEq, Repr

/-! ## `GetState` (C9) -/

inductive OverallBlockState where
  | cleanState
  | dirtyState
deriving DecidableEq, Repr

/-- `GetState` returns the overall block state of this TLF. -/
def GetState (st : FboState) : OverallBlockState :=
  if st.dirtyFiles.length = 0 ∧ st.dirtyDirs.length = 0 ∧
      st.dirtyRootDirEntry = none then
    .cleanState
  else
    .dirtyState

/-- C9: `GetState` returns `cleanState` iff the folder has no dirty
files, no dirty directories, and no dirty root directory entry; in
every other state it returns `dirtyState`. -/
theorem GetState_clean_iff (st : FboState) :
    (GetState st = .cleanState ↔
      (st.dirtyFiles = [] ∧ st.dirtyDirs = [] ∧
        st.dirtyRootDirEntry = none)) ∧
    (¬(st.dirtyFiles = [] ∧ st.dirtyDirs = [] ∧
        st.dirtyRootDirEntry = none) → GetState st = .dirtyState) := by
  have hiff : (st.dirtyFiles.length = 0 ∧ st.dirtyDirs.length = 0 ∧
      st.dirtyRootDirEntry = none) ↔
      (st.dirtyFiles = [] ∧ st.dirtyDirs = [] ∧
        st.dirtyRootDirEntry = none) := by
    simp [List.length_eq_zero]
  by_cases hc : st.dirtyFiles.length = 0 ∧ st.dirtyDirs.length = 0 ∧
      st.dirtyRootDirEntry = none
  · constructor
    · unfold GetState
      rw [if_pos hc]
      exact ⟨fun _ => hiff.mp hc, fun _ => rfl⟩
    · intro h
      exact absurd (hiff.mp hc) h
  · constructor
    · unfold GetState
      rw [if_neg hc]
      constructor
      · intro h
        exact OverallBlockState.noConfusion h
      · intro h
        exact absurd (hiff.mpr h) hc
    · intro _
      unfold GetState
      rw [if_neg hc]

/-! ## `getFileBlockLocked` (C1): copy-on-write on the write fetch path -/

inductive BlockReqType where
  | blockRead
  | blockWrite
  | blockReadParallel
  | blockLookup
deriving DecidableEq, Repr

/-- The block returned by `getFileBlockLocked`, with its provenance:
either the cached/fetched block object itself, or a fresh `DeepCopy` of
it (Go object identity made explicit). -/
inductive FetchedFileBlock where
  | original (b : FileBlock)
  | copied (b : FileBlock)
deriving DecidableEq, Repr

/-- `getFileBlockLocked`.  The fetch through
`getFileBlockHelperLocked` (dirty cache, then clean cache, then
network) is supplied as the oracle `fetchRes`; the function then
mirrors the source's dirty check and copy-on-write decision, and
returns the block together with whether it was already dirty. -/
def getFileBlockLocked (st : FboState) (fetchRes : Except EngineErr FileBlock)
    (ptr : BlockPointer) (file : KbfsPath) (rtype : BlockReqType) :
    Except EngineErr (FetchedFileBlock × Bool) :=
  match fetchRes with
  | .error e => .error e
  | .ok fblock =>
    let wasDirty := st.dirtyBcache.IsDirty ptr
    if rtype = .blockWrite then
      -- Copy the block if it's for writing, and either the block is
      -- not yet dirty or it is being sync'd and needs a copy.
      let df := alookup st.dirtyFiles file.tailPointer
      if !wasDirty ||
          (match df with
           | some df => df.blockNeedsCopy ptr
           | none => false) then
        .ok (.copied fblock.DeepCopy, wasDirty)
      else
        .ok (.original fblock, wasDirty)
    else
      .ok (.original fblock, wasDirty)

/-- The copy-on-write condition of `getFileBlockLocked` for
`blockWrite`, as the source writes it. -/
def copyOnWriteCond (st : FboState) (ptr : BlockPointer) (file : KbfsPath) :
    Bool :=
  !st.dirtyBcache.IsDirty ptr ||
    (match alookup st.dirtyFiles file.tailPointer with
     | some df => df.blockNeedsCopy ptr
     | none => false)

/-- Evaluation of `getFileBlockLocked` on a successful write fetch. -/
theorem getFileBlockLocked_write_eq (st : FboState)
    (fetchRes : Except EngineErr FileBlock) (ptr : BlockPointer)
    (file : KbfsPath) (fb : FileBlock) (hf : fetchRes = .ok fb) :
    getFileBlockLocked st fetchRes ptr file .blockWrite =
      .ok (if copyOnWriteCond st ptr file then
             FetchedFileBlock.copied fb.DeepCopy
           else
             FetchedFileBlock.original fb,
           st.dirtyBcache.IsDirty ptr) := by
  subst hf
  unfold getFileBlockLocked copyOnWriteCond
  simp only [reduceIte, if_true]
  split <;> rfl

/-- C1: for every successful `getFileBlockLocked` call with request
type `blockWrite`, the returned `FileBlock` is a deep copy of the
cached block exactly when the block was not already dirty in the dirty
block cache, or when a `DirtyFile` exists for the file's tail pointer
and its `blockNeedsCopy(ptr)` reports true for the requested pointer;
in all other cases the cached block itself is returned.  The call also
returns whether the block was already dirty. -/
theorem getFileBlockLocked_blockWrite_copy (st : FboState)
    (fetchRes : Except EngineErr FileBlock) (ptr : BlockPointer)
    (file : KbfsPath) (fb : FileBlock) (r : FetchedFileBlock)
    (wasDirty : Bool)
    (hfetch : fetchRes = .ok fb)
    (h : getFileBlockLocked st fetchRes ptr file .blockWrite =
      .ok (r, wasDirty)) :
    wasDirty = st.dirtyBcache.IsDirty ptr ∧
    (r = .copied fb.DeepCopy ↔
      (st.dirtyBcache.IsDirty ptr = false ∨
        ∃ df, alookup st.dirtyFiles file.tailPointer = some df ∧
          df.blockNeedsCopy ptr = true)) ∧
    (¬(st.dirtyBcache.IsDirty ptr = false ∨
        ∃ df, alookup st.dirtyFiles file.tailPointer = some df ∧
          df.blockNeedsCopy ptr = true) → r = .original fb) := by
  rw [getFileBlockLocked_write_eq st fetchRes ptr file fb hfetch] at h
  injection h with h'
  have hcond : copyOnWriteCond st ptr file = true ↔
      (st.dirtyBcache.IsDirty ptr = false ∨
        ∃ df, alookup st.dirtyFiles file.tailPointer = some df ∧
          df.blockNeedsCopy ptr = true) := by
    unfold copyOnWriteCond
    rw [Bool.or_eq_true, Bool.not_eq_true']
    cases hdf : alookup st.dirtyFiles file.tailPointer with
    | none =>
      simp
    | some df =>
      simp
  cases h'
  refine ⟨rfl, ?_, ?_⟩
  · by_cases hc : copyOnWriteCond st ptr file = true
    · rw [if_pos hc]
      simpa using hcond.mp hc
    · rw [if_neg hc]
      constructor
      · intro hcontra
        exact FetchedFileBlock.noConfusion hcontra
      · intro hr
        exact absurd (hcond.mpr hr) hc
  · intro hnot
    have hc : ¬copyOnWriteCond st ptr file = true := fun hc =>
      hnot (hcond.mp hc)
    rw [if_neg hc]

/-- Witness for C1 at a concrete state: a clean block fetched for
write is returned as a deep copy. -/
theorem getFileBlockLocked_blockWrite_copy_witness :
    let pw : BlockPointer := {id := 1, refNonce := 0, valid := true}
    let fb : FileBlock := {contents := [7, 7], isInd := false}
    let st : FboState := {}
    (getFileBlockLocked st (.ok fb) pw ⟨[{ptr := pw, name := "a"}]⟩
        .blockWrite = .ok (.copied fb.DeepCopy, false)) ∧
    (false = st.dirtyBcache.IsDirty pw) := by
  refine ⟨by decide, ?_⟩
  have h := getFileBlockLocked_blockWrite_copy {}
    (.ok {contents := [7, 7], isInd := false})
    {id := 1, refNonce := 0, valid := true}
    ⟨[{ptr := {id := 1, refNonce := 0, valid := true}, name := "a"}]⟩
    {contents := [7, 7], isInd := false}
    (.copied (FileBlock.DeepCopy {contents := [7, 7], isInd := false}))
    false rfl (by decide)
  exact h.1

/-! ## `GetCleanEncodedBlocksSizeSum` (C4) -/

/-- `numBlockSizeWorkersMax`: the max number of workers to use when
fetching a set of block sizes. -/
def numBlockSizeWorkersMax : Nat := 50

/-- The worker count chosen by `GetCleanEncodedBlocksSizeSum`
(source lines 487-490). -/
def numBlockSizeWorkers (numPtrs : Nat) : Nat :=
  if numPtrs < numBlockSizeWorkersMax then numPtrs else numBlockSizeWorkersMax

/-- `getCleanEncodedBlockSizeLocked` for one pointer: reject invalid
pointers, try the clean block cache, then fall through to the block-ops
size fetch (which includes the data-version check), both supplied as
oracles. -/
def getCleanEncodedBlockSize (cleanCacheSize : BlockPointer → Option Nat)
    (serverSize : BlockPointer → Except EngineErr Nat)
    (invalidErr : EngineErr) (ptr : BlockPointer) : Except EngineErr Nat :=
  if !ptr.IsValid then
    .error invalidErr
  else
    match cleanCacheSize ptr with
    | some size => .ok size
    | none => serverSize ptr

/-- The worker-pool body of `GetCleanEncodedBlocksSizeSum`, sequenced.
Each pointer is fetched; a recoverable-for-removal failure on a pointer
in the ignore set is skipped; any other failure aborts (the errgroup's
first-error cancellation); otherwise the sizes drained from `sumCh` are
summed.  The concurrent fan-out computes the same sum-or-error: success
requires every worker, hence every pointer, to have been processed. -/
def getCleanEncodedBlocksSizeSumLoop
    (fetch : BlockPointer → Except EngineErr Nat)
    (ignore : List BlockPointer) : List BlockPointer → Except EngineErr Nat
  | [] => .ok 0
  | ptr :: rest =>
    match fetch ptr with
    | .ok size =>
      match getCleanEncodedBlocksSizeSumLoop fetch ignore rest with
      | .ok sum => .ok (size + sum)
      | .error e => .error e
    | .error e =>
      if isRecoverableBlockErrorForRemoval e && ignore.contains ptr then
        getCleanEncodedBlocksSizeSumLoop fetch ignore rest
      else
        .error e

/-- `GetCleanEncodedBlocksSizeSum`. -/
def GetCleanEncodedBlocksSizeSum
    (cleanCacheSize : BlockPointer → Option Nat)
    (serverSize : BlockPointer → Except EngineErr Nat)
    (invalidErr : EngineErr) (ptrs : List BlockPointer)
    (ignoreRecoverableForRemovalErrors : List BlockPointer) :
    Except EngineErr Nat :=
  getCleanEncodedBlocksSizeSumLoop
    (getCleanEncodedBlockSize cleanCacheSize serverSize invalidErr)
    ignoreRecoverableForRemovalErrors ptrs

/-- The size contribution of one pointer under a per-pointer fetch
outcome: its encoded size on success, `0` when its fetch failed. -/
def fetchSizeOrZero (fetch : BlockPointer → Except EngineErr Nat)
    (ptr : BlockPointer) : Nat :=
  match fetch ptr with
  | .ok size => size
  | .error _ => 0

theorem getCleanEncodedBlocksSizeSumLoop_ok
    (fetch : BlockPointer → Except EngineErr Nat)
    (ignore : List BlockPointer) (ptrs : List BlockPointer) (sum : Nat)
    (h : getCleanEncodedBlocksSizeSumLoop fetch ignore ptrs = .ok sum) :
    sum = (ptrs.map (fetchSizeOrZero fetch)).sum ∧
    ∀ ptr ∈ ptrs, ∀ e, fetch ptr = .error e →
      isRecoverableBlockErrorForRemoval e = true ∧ ignore.contains ptr = true := by
  induction ptrs generalizing sum with
  | nil =>
    unfold getCleanEncodedBlocksSizeSumLoop at h
    injection h with h'
    subst h'
    exact ⟨rfl, by intro ptr hmem; cases hmem⟩
  | cons ptr rest ih =>
    unfold getCleanEncodedBlocksSizeSumLoop at h
    cases hf : fetch ptr with
    | ok size =>
      simp only [hf] at h
      cases hrest : getCleanEncodedBlocksSizeSumLoop fetch ignore rest with
      | ok sum' =>
        simp only [hrest] at h
        injection h with h'
        obtain ⟨hsum, hmem⟩ := ih sum' hrest
        constructor
        · rw [← h', hsum]
          simp [fetchSizeOrZero, hf]
        · intro q hq e he
          cases hq with
          | head =>
            rw [hf] at he
            exact Except.noConfusion he
          | tail _ hq' => exact hmem q hq' e he
      | error e =>
        simp only [hrest] at h
        exact Except.noConfusion h
    | error e =>
      simp only [hf] at h
      by_cases hskip :
          (isRecoverableBlockErrorForRemoval e && ignore.contains ptr) = true
      · rw [if_pos hskip] at h
        obtain ⟨hsum, hmem⟩ := ih sum h
        rw [Bool.and_eq_true] at hskip
        constructor
        · rw [hsum]
          simp [fetchSizeOrZero, hf]
        · intro q hq e' he'
          cases hq with
          | head =>
            rw [hf] at he'
            injection he' with he''
            subst he''
            exact hskip
          | tail _ hq' => exact hmem q hq' e' he'
      · rw [if_neg hskip] at h
        exact Except.noConfusion h

/-- C4: every successful `GetCleanEncodedBlocksSizeSum(ptrs, ignore)`
returns the sum of the encoded sizes of the blocks pointed to by every
pointer in `ptrs`, excluding exactly the pointers in the ignore set
whose fetch failed with a recoverable-for-removal error (all other
fetches must have succeeded for the call to succeed); and the fan-out
uses `min(50, len(ptrs))` workers, never more than 50. -/
theorem GetCleanEncodedBlocksSizeSum_ok
    (cleanCacheSize : BlockPointer → Option Nat)
    (serverSize : BlockPointer → Except EngineErr Nat)
    (invalidErr : EngineErr) (ptrs : List BlockPointer)
    (ignore : List BlockPointer) (sum : Nat)
    (h : GetCleanEncodedBlocksSizeSum cleanCacheSize serverSize invalidErr
      ptrs ignore = .ok sum) :
    (sum = (ptrs.map (fetchSizeOrZero
        (getCleanEncodedBlockSize cleanCacheSize serverSize invalidErr))).sum ∧
      ∀ ptr ∈ ptrs, ∀ e,
        getCleanEncodedBlockSize cleanCacheSize serverSize invalidErr ptr =
          .error e →
        isRecoverableBlockErrorForRemoval e = true ∧
          ignore.contains ptr = true) ∧
    numBlockSizeWorkers ptrs.length = min 50 ptrs.length ∧
    numBlockSizeWorkers ptrs.length ≤ 50 := by
  refine ⟨getCleanEncodedBlocksSizeSumLoop_ok _ ignore ptrs sum h, ?_, ?_⟩
  · unfold numBlockSizeWorkers numBlockSizeWorkersMax
    split <;> omega
  · unfold numBlockSizeWorkers numBlockSizeWorkersMax
    split <;> omega

/-- Witness for C4: three pointers, one of which fails with a
recoverable-for-removal error and is in the ignore set; the sum counts
the other two. -/
theorem GetCleanEncodedBlocksSizeSum_ok_witness :
    let p1 : BlockPointer := {id := 1, refNonce := 0, valid := true}
    let p2 : BlockPointer := {id := 2, refNonce := 0, valid := true}
    let p3 : BlockPointer := {id := 3, refNonce := 0, valid := true}
    let cache : BlockPointer → Option Nat := fun p =>
      if p.id = 1 then some 10 else none
    let server : BlockPointer → Except EngineErr Nat := fun p =>
      if p.id = 3 then .ok 32
      else .error {code := 5, recoverableForRemoval := true}
    let res := GetCleanEncodedBlocksSizeSum cache server {code := 9}
      [p1, p2, p3] [p2]
    res = .ok 42 ∧
    (42 = ([p1, p2, p3].map (fetchSizeOrZero
        (getCleanEncodedBlockSize cache server {code := 9}))).sum) ∧
    numBlockSizeWorkers 3 = min 50 3 := by
  refine ⟨by decide, ?_, ?_⟩
  · have h := GetCleanEncodedBlocksSizeSum_ok
      (fun p => if p.id = 1 then some 10 else none)
      (fun p => if p.id = 3 then .ok 32
        else .error {code := 5, recoverableForRemoval := true})
      {code := 9}
      [{id := 1, refNonce := 0, valid := true},
       {id := 2, refNonce := 0, valid := true},
       {id := 3, refNonce := 0, valid := true}]
      [{id := 2, refNonce := 0, valid := true}]
      42 (by decide)
    exact h.1.1
  · exact (GetCleanEncodedBlocksSizeSum_ok
      (fun p => if p.id = 1 then some 10 else none)
      (fun p => if p.id = 3 then .ok 32
        else .error {code := 5, recoverableForRemoval := true})
      {code := 9}
      [{id := 1, refNonce := 0, valid := true},
       {id := 2, refNonce := 0, valid := true},
       {id := 3, refNonce := 0, valid := true}]
      [{id := 2, refNonce := 0, valid := true}]
      42 (by decide)).2.1

/-! ## `ClearCacheInfo`, `IsDirty`, `GetDirtyFileBlockRefs` (C2) -/

theorem alookup_aerase_self {κ α : Type} [DecidableEq κ]
    (m : List (κ × α)) (k : κ) : alookup (aerase m k) k = none := by
  induction m with
  | nil => rfl
  | cons kv rest ih =>
    by_cases hk : kv.1 = k
    · simpa [aerase, List.filter_cons, hk] using ih
    · simpa [aerase, List.filter_cons, hk, alookup] using ih

theorem alookup_aerase_ne {κ α : Type} [DecidableEq κ]
    (m : List (κ × α)) (k k' : κ) (hne : k' ≠ k) :
    alookup (aerase m k) k' = alookup m k' := by
  induction m with
  | nil => rfl
  | cons kv rest ih =>
    have hkk' : ¬k = k' := fun he => hne he.symm
    by_cases hk : kv.1 = k
    · simpa [aerase, List.filter_cons, hk, alookup, hkk'] using ih
    · by_cases hk' : kv.1 = k'
      · simp [aerase, List.filter_cons, hk, alookup, hk', hne]
      · simpa [aerase, List.filter_cons, hk, alookup, hk'] using ih

theorem not_mem_map_fst_aerase {κ α : Type} [DecidableEq κ]
    (m : List (κ × α)) (k : κ) : k ∉ (aerase m k).map Prod.fst := by
  intro hmem
  obtain ⟨kv, hkv, hfst⟩ := List.mem_map.mp hmem
  have := List.mem_filter.mp hkv
  rw [hfst] at this
  simp at this

/-- Modelled from the spec (§4.6.2, "finish the DirtyFile"):
`dirtyFile.finishSync` releases in-flight byte accounting and can fail;
the outcome is carried abstractly by `finishSyncOk`. -/
def DirtyFile.finishSync (df : DirtyFile) : Except EngineErr DirtyFile :=
  if df.finishSyncOk then .ok {df with notYetSyncingBytes := 0}
  else .error {code := 101}

/-- `clearCacheInfoLocked`: drop the file's `unrefCache` entry, then
finish and drop its `dirtyFile` entry (left in place when `finishSync`
fails, as in the source). -/
def clearCacheInfoLocked (st : FboState) (file : KbfsPath) :
    Except EngineErr FboState :=
  let st1 := {st with unrefCache := aerase st.unrefCache file.tailRef}
  match alookup st1.dirtyFiles file.tailPointer with
  | none => .ok st1
  | some df =>
    match df.finishSync with
    | .error e => .error e
    | .ok _ =>
      .ok {st1 with dirtyFiles := aerase st1.dirtyFiles file.tailPointer}

/-- `ClearCacheInfo` removes any cached info for the given file. -/
def ClearCacheInfo (st : FboState) (file : KbfsPath) :
    Except EngineErr FboState :=
  clearCacheInfoLocked st file

/-- `IsDirty` returns whether the given file is dirty: the dirty block
cache, the `dirtyFiles` map and the `unrefCache` map are each checked. -/
def IsDirty (st : FboState) (file : KbfsPath) : Bool :=
  st.dirtyBcache.IsDirty file.tailPointer ||
    (alookup st.dirtyFiles file.tailPointer).isSome ||
    (alookup st.unrefCache file.tailRef).isSome

/-- `GetDirtyFileBlockRefs`: the references of all known dirty files,
i.e. the keys of `unrefCache`. -/
def GetDirtyFileBlockRefs (st : FboState) : List BlockRef :=
  st.unrefCache.map Prod.fst

/-- C2 counterexample: a state whose dirty block cache still holds the
file's tail pointer, with no `dirtyFiles` or `unrefCache` entries.
`ClearCacheInfo` succeeds (returning the state unchanged) yet `IsDirty`
still reports true, because `ClearCacheInfo` never removes dirty-block
-cache entries while `IsDirty` consults that cache first. -/
theorem ClearCacheInfo_isDirty_counterexample :
    let p : BlockPointer := {id := 1, refNonce := 0, valid := true}
    let file : KbfsPath := ⟨[{ptr := p, name := "f"}]⟩
    let st : FboState := {dirtyBcache := {dirty := [p]}}
    ClearCacheInfo st file = .ok st ∧ IsDirty st file = true := by
  exact ⟨by decide, by decide⟩

/-- C2, amended: after a successful `ClearCacheInfo(p)` — provided the
dirty block cache does not report `p`'s tail pointer dirty, since
`ClearCacheInfo` does not remove dirty-block-cache entries — `IsDirty(p)`
returns false; and in all successful cases `GetDirtyFileBlockRefs` does
not contain `p.tailRef`. -/
theorem ClearCacheInfo_amended (st st' : FboState) (file : KbfsPath)
    (h : ClearCacheInfo st file = .ok st')
    (hcache : st.dirtyBcache.IsDirty file.tailPointer = false) :
    IsDirty st' file = false ∧
    file.tailRef ∉ GetDirtyFileBlockRefs st' := by
  unfold ClearCacheInfo clearCacheInfoLocked at h
  cases hdf : alookup st.dirtyFiles file.tailPointer with
  | none =>
    simp only [hdf] at h
    injection h with h'
    subst h'
    constructor
    · unfold IsDirty
      simp only [hcache, hdf, alookup_aerase_self, Option.isSome_none,
        Bool.or_self, Bool.false_or]
    · exact not_mem_map_fst_aerase st.unrefCache file.tailRef
  | some df =>
    simp only [hdf] at h
    cases hfs : df.finishSync with
    | error e =>
      rw [hfs] at h
      exact Except.noConfusion h
    | ok dfDone =>
      rw [hfs] at h
      injection h with h'
      subst h'
      constructor
      · unfold IsDirty
        simp only [hcache, alookup_aerase_self, Option.isSome_none,
          Bool.or_self, Bool.false_or]
      · exact not_mem_map_fst_aerase st.unrefCache file.tailRef

/-- Witness for the amended C2 at a concrete state that holds both a
`dirtyFiles` entry and an `unrefCache` entry for the file. -/
theorem ClearCacheInfo_amended_witness :
    let p : BlockPointer := {id := 2, refNonce := 3, valid := true}
    let file : KbfsPath := ⟨[{ptr := p, name := "g"}]⟩
    let stOut : FboState := {dirtyFiles := [], unrefCache := []}
    IsDirty stOut file = false ∧ file.tailRef ∉ GetDirtyFileBlockRefs stOut := by
  intro p file stOut
  exact ClearCacheInfo_amended
    {dirtyFiles := [(p, {})], unrefCache := [(p.Ref, {})]} stOut file
    (by decide) (by decide)

/-! ## Write/truncate engine (C3, C7) -/

/-- `truncateExtendCutoffPoint`: the amount of data in an extending
truncate that triggers the extending-with-a-hole algorithm. -/
def truncateExtendCutoffPoint : Int := 128 * 1024

theorem alookup_aupsert_self {κ α : Type} [DecidableEq κ]
    (m : List (κ × α)) (k : κ) (v : α) : alookup (aupsert m k v) k = some v := by
  induction m with
  | nil => simp [aupsert, alookup]
  | cons kv rest ih =>
    by_cases hk : kv.1 = k
    · simp [aupsert, hk, alookup]
    · simp [aupsert, hk, alookup, ih]

theorem alookup_aupdate_self {κ α : Type} [DecidableEq κ]
    (m : List (κ × α)) (k : κ) (f : α → α) :
    alookup (aupdate m k f) k = (alookup m k).map f := by
  induction m with
  | nil => rfl
  | cons kv rest ih =>
    obtain ⟨k1, v1⟩ := kv
    by_cases hk : k1 = k
    · subst hk
      simp [aupdate, alookup]
    · simp [aupdate, alookup, hk, ih]

theorem alookup_aupdate_ne {κ α : Type} [DecidableEq κ]
    (m : List (κ × α)) (k k' : κ) (f : α → α) (hne : k' ≠ k) :
    alookup (aupdate m k f) k' = alookup m k' := by
  induction m with
  | nil => rfl
  | cons kv rest ih =>
    obtain ⟨k1, v1⟩ := kv
    by_cases hk : k1 = k
    · subst hk
      have hkk' : ¬k1 = k' := fun he => hne he.symm
      simp [aupdate, alookup, hkk', ih]
    · by_cases hk' : k1 = k'
      · subst hk'
        simp [aupdate, alookup, hk, ih]
      · simp [aupdate, alookup, hk, hk', ih]

/-- `getChargedToLocked`: return the cached charged-to id, or fetch it
(oracle) and cache it on the engine. -/
def getChargedToLocked (st : FboState) (fetchRes : Except EngineErr Nat) :
    Except EngineErr (Nat × FboState) :=
  match st.chargedTo with
  | some cid => .ok (cid, st)
  | none =>
    match fetchRes with
    | .error e => .error e
    | .ok cid => .ok (cid, {st with chargedTo := some cid})

theorem getChargedToLocked_ok (st : FboState) (f : Except EngineErr Nat)
    (c : Nat) (st' : FboState) (h : getChargedToLocked st f = .ok (c, st')) :
    st' = {st with chargedTo := some c} := by
  unfold getChargedToLocked at h
  cases hc : st.chargedTo with
  | some cid =>
    rw [hc] at h
    injection h with h'
    injection h' with h1 h2
    subst h1
    rw [← h2, ← hc]
  | none =>
    rw [hc] at h
    cases hf : f with
    | error e =>
      rw [hf] at h
      exact Except.noConfusion h
    | ok cid =>
      rw [hf] at h
      injection h with h'
      injection h' with h1 h2
      subst h1
      exact h2.symm

/-- `getOrCreateDirtyFileLocked`: create the file's `dirtyFile` lazily. -/
def getOrCreateDirtyFileLocked (st : FboState) (file : KbfsPath) : FboState :=
  match alookup st.dirtyFiles file.tailPointer with
  | some _ => st
  | none => {st with dirtyFiles := aupsert st.dirtyFiles file.tailPointer {}}

/-- `getOrCreateSyncInfoLocked`: look up or create the `syncInfo` under
the entry's ref; creating a fresh `syncOp` can fail (oracle). -/
def getOrCreateSyncInfoLocked (st : FboState) (de : DirEntry)
    (newSyncOpErr : Option EngineErr) : Except EngineErr (SyncInfo × FboState) :=
  match alookup st.unrefCache de.Ref with
  | some si => .ok (si, st)
  | none =>
    match newSyncOpErr with
    | some e => .error e
    | none =>
      let si : SyncInfo := {oldInfo := de.info, op := {}}
      .ok (si, {st with unrefCache := aupsert st.unrefCache de.Ref si})

/-- The mutation performed by `makeDirDirtyLocked` (its undo closure is
not modelled): append the unrefs to the directory's `dirtyDirs` entry,
creating it if absent. -/
def makeDirDirtyApply (st : FboState) (ptr : BlockPointer)
    (unrefs : List BlockInfo) : FboState :=
  let oldUnrefs := (alookup st.dirtyDirs ptr).getD []
  {st with dirtyDirs := aupsert st.dirtyDirs ptr (oldUnrefs ++ unrefs)}

/-- `updateEntryLocked` for a file with a valid parent: update the
parent directory's listing with the new entry and dirty the parent.
The dir-data adapter lives outside `src/`; its failure modes (and the
unlinked-node fallback) are summarized by the `adapterErr` oracle and
its returned unrefs by `unrefs`. -/
def updateEntryLocked (st : FboState) (file : KbfsPath) (de : DirEntry)
    (adapterErr : Option EngineErr) (unrefs : List BlockInfo) :
    Except EngineErr FboState :=
  match adapterErr with
  | some e => .error e
  | none =>
    let pp := file.parentPath
    let listing := (alookup st.dirContents pp.tailPointer).getD []
    let newListing := aupsert listing file.tailName de
    let st1 := {st with
      dirContents := aupsert st.dirContents pp.tailPointer newListing}
    .ok (makeDirDirtyApply st1 pp.tailPointer unrefs)

/-- The deferred `df.updateNotYetSyncingBytes(n)` applied at the exits
of `writeDataLocked`. -/
def applyDfNotYetSyncingBytes (st : FboState) (key : BlockPointer)
    (n : Int) : FboState :=
  let newFiles := aupdate st.dirtyFiles key
    (fun df => df.updateNotYetSyncingBytes n)
  {st with dirtyFiles := newFiles}

/-- Oracle outcomes for the external calls made by `writeDataLocked`:
the write-permission check plus top-block fetch, the charged-to fetch,
the entry lookup, fresh-`syncOp` creation, the file-data adapter's
`fd.write` (whose returned values accompany any error, as in Go), and
the parent dir-entry update. -/
structure WriteOracle where
  writeGetFile : Except EngineErr FileBlock := .ok {}
  chargedToFetch : Except EngineErr Nat := .ok 0
  getEntry : Except EngineErr DirEntry := .ok {}
  newSyncOpErr : Option EngineErr := none
  fdWriteNewDe : DirEntry := {}
  fdWriteDirtyPtrs : List BlockPointer := []
  fdWriteUnrefs : List BlockInfo := []
  fdWriteNewlyDirtiedChildBytes : Int := 0
  fdWriteBytesExtended : Int := 0
  fdWriteErr : Option EngineErr := none
  fdWriteSetsDoDefer : Bool := false
  updateEntryErr : Option EngineErr := none
  updateEntryUnrefs : List BlockInfo := []
  nowNanos : Int := 0
deriving DecidableEq, Repr

/-- The `(latestWrite, dirtyPtrs, newlyDirtiedChildBytes, err)` result
of `writeDataLocked` (`newlyDirtiedChildBytes` accompanies errors, as
the Go named return does). -/
structure WriteResult where
  latestWrite : WriteRange := {}
  dirtyPtrs : List BlockPointer := []
  newlyDirtiedChildBytes : Int := 0
  err : Option EngineErr := none
deriving DecidableEq, Repr

/-- `writeDataLocked` (source lines 1879-1965).  The file-data
adapter's cacher effects (dirty-cache puts, `doDeferWrite`) are applied
from the oracle; the unrefs returned by `fd.write` are recorded into
the `syncInfo` before the adapter's error is checked, as in the
source. -/
def writeDataLocked (st0 : FboState) (o : WriteOracle) (file : KbfsPath)
    (data : List Nat) (off : Int) : WriteResult × FboState :=
  match o.writeGetFile with
  | .error e => ({err := some e}, st0)
  | .ok _fblock =>
    match getChargedToLocked st0 o.chargedToFetch with
    | .error e => ({err := some e}, st0)
    | .ok (_chargedTo, st1) =>
      let key := file.tailPointer
      let st2 := getOrCreateDirtyFileLocked st1 file
      match o.getEntry with
      | .error e => ({err := some e}, applyDfNotYetSyncingBytes st2 key 0)
      | .ok de =>
        match getOrCreateSyncInfoLocked st2 de o.newSyncOpErr with
        | .error e => ({err := some e}, applyDfNotYetSyncingBytes st2 key 0)
        | .ok (_si, st3) =>
          let bytes := o.fdWriteNewlyDirtiedChildBytes
          let st4 := {st3 with
            dirtyBcache := {st3.dirtyBcache with
              dirty := st3.dirtyBcache.dirty ++ o.fdWriteDirtyPtrs},
            doDeferWrite := st3.doDeferWrite || o.fdWriteSetsDoDefer}
          -- Record the unrefs before checking the error so we remember
          -- the state of newly dirtied blocks.
          let cacheWithUnrefs := aupdate st4.unrefCache de.Ref
            (fun si => {si with unrefs := si.unrefs ++ o.fdWriteUnrefs})
          let st5 := {st4 with unrefCache := cacheWithUnrefs}
          match o.fdWriteErr with
          | some e =>
            ({err := some e, newlyDirtiedChildBytes := bytes},
             applyDfNotYetSyncingBytes st5 key bytes)
          | none =>
            let newDe := {o.fdWriteNewDe with
              mtime := o.nowNanos, ctime := o.nowNanos}
            match updateEntryLocked st5 file newDe o.updateEntryErr
                o.updateEntryUnrefs with
            | .error e =>
              ({err := some e, newlyDirtiedChildBytes := bytes},
               applyDfNotYetSyncingBytes st5 key bytes)
            | .ok st6 =>
              let st7 :=
                if st6.doDeferWrite then
                  let filesWithDeferred := aupdate st6.dirtyFiles key
                    (fun df => df.addDeferredNewBytes o.fdWriteBytesExtended)
                  {st6 with dirtyFiles := filesWithDeferred}
                else st6
              let cacheWithWrite := aupdate st7.unrefCache de.Ref
                (fun si => {si with
                  op := (si.op.addWrite off.toNat data.length).2})
              let st8 := {st7 with unrefCache := cacheWithWrite}
              ({latestWrite := {off := off.toNat, len := data.length},
                dirtyPtrs := o.fdWriteDirtyPtrs,
                newlyDirtiedChildBytes := bytes},
               applyDfNotYetSyncingBytes st8 key bytes)

/-- Oracle outcomes for `truncateExtendLocked`. -/
structure TruncExtendOracle where
  writeGetFile : Except EngineErr FileBlock := .ok {}
  chargedToFetch : Except EngineErr Nat := .ok 0
  getEntry : Except EngineErr DirEntry := .ok {}
  fdTruncateExtendNewDe : DirEntry := {}
  fdTruncateExtendDirtyPtrs : List BlockPointer := []
  fdTruncateExtendErr : Option EngineErr := none
  updateEntryErr : Option EngineErr := none
  updateEntryUnrefs : List BlockInfo := []
  newSyncOpErr : Option EngineErr := none
  nowNanos : Int := 0
deriving DecidableEq, Repr

/-- `truncateExtendLocked` (source lines 2046-2099): the hole-creating
extend path. -/
def truncateExtendLocked (st0 : FboState) (o : TruncExtendOracle)
    (file : KbfsPath) (size : Nat) :
    (WriteRange × List BlockPointer × Option EngineErr) × FboState :=
  match o.writeGetFile with
  | .error e => (({}, [], some e), st0)
  | .ok _fblock =>
    match getChargedToLocked st0 o.chargedToFetch with
    | .error e => (({}, [], some e), st0)
    | .ok (_chargedTo, st1) =>
      match o.getEntry with
      | .error e => (({}, [], some e), st1)
      | .ok de =>
        let st2 := getOrCreateDirtyFileLocked st1 file
        match o.fdTruncateExtendErr with
        | some e => (({}, [], some e), st2)
        | none =>
          let st3 := {st2 with dirtyBcache := {st2.dirtyBcache with
            dirty := st2.dirtyBcache.dirty ++ o.fdTruncateExtendDirtyPtrs}}
          let newDe := {o.fdTruncateExtendNewDe with
            mtime := o.nowNanos, ctime := o.nowNanos}
          match updateEntryLocked st3 file newDe o.updateEntryErr
              o.updateEntryUnrefs with
          | .error e => (({}, [], some e), st3)
          | .ok st4 =>
            match getOrCreateSyncInfoLocked st4 de o.newSyncOpErr with
            | .error e => (({}, [], some e), st4)
            | .ok (_si, st5) =>
              let cacheWithTrunc := aupdate st5.unrefCache de.Ref
                (fun si => {si with op := (si.op.addTruncate size).2})
              let st6 := {st5 with unrefCache := cacheWithTrunc}
              (({off := size, len := 0},
                o.fdTruncateExtendDirtyPtrs, none), st6)

/-- Which branch of `truncateLocked` ran (proof instrumentation; the
source records this only through control flow). -/
inductive TruncateAction where
  | extendHole
  | extendWrite (zeroBytes : Int)
  | noop
  | shrink
deriving DecidableEq, Repr

/-- Oracle outcomes for `truncateLocked`.  `atOffset` is the
`fd.getFileBlockAtOffset(iSize)` outcome as
`(startOff, contentsLen, nextBlockOff)`; the parent-block list only
flows into the extend path's own oracle. -/
structure TruncOracle where
  writeGetFile : Except EngineErr FileBlock := .ok {}
  chargedToFetch : Except EngineErr Nat := .ok 0
  atOffset : Except EngineErr (Int × Nat × Int) := .ok (0, 0, -1)
  extend : TruncExtendOracle := {}
  write : WriteOracle := {}
  getEntry : Except EngineErr DirEntry := .ok {}
  newSyncOpErr : Option EngineErr := none
  truncShrinkNewDe : DirEntry := {}
  truncShrinkDirtyPtrs : List BlockPointer := []
  truncShrinkUnrefs : List BlockInfo := []
  truncShrinkNewlyDirtiedChildBytes : Int := 0
  truncShrinkErr : Option EngineErr := none
  updateEntryErr : Option EngineErr := none
  updateEntryUnrefs : List BlockInfo := []
  nowNanos : Int := 0
deriving DecidableEq, Repr

/-- The result of `truncateLocked`: the Go function returns a pointer
to a `WriteRange` (`none` on the no-op path and on shrink-path errors,
`some` of an empty range on early errors), the dirty pointers, the
newly-dirtied byte count, and the error. -/
structure TruncResult where
  latestWrite : Option WriteRange := none
  dirtyPtrs : List BlockPointer := []
  newlyDirtiedChildBytes : Int := 0
  err : Option EngineErr := none
  action : Option TruncateAction := none
deriving DecidableEq, Repr

/-- `truncateLocked` (source lines 2103-2187). -/
def truncateLocked (st0 : FboState) (o : TruncOracle) (file : KbfsPath)
    (size : Nat) : TruncResult × FboState :=
  match o.writeGetFile with
  | .error e => ({latestWrite := some {}, err := some e}, st0)
  | .ok _fblock =>
    match getChargedToLocked st0 o.chargedToFetch with
    | .error e => ({latestWrite := some {}, err := some e}, st0)
    | .ok (_chargedTo, st1) =>
      match o.atOffset with
      | .error e => ({latestWrite := some {}, err := some e}, st1)
      | .ok (startOff, contentsLen, nextBlockOff) =>
        let iSize : Int := (size : Int)
        let currLen : Int := startOff + (contentsLen : Int)
        if currLen + truncateExtendCutoffPoint < iSize then
          let r := truncateExtendLocked st1 o.extend file size
          ({latestWrite := some r.1.1, dirtyPtrs := r.1.2.1,
            err := r.1.2.2, action := some .extendHole}, r.2)
        else if currLen < iSize then
          let moreNeeded := iSize - currLen
          let r := writeDataLocked st1 o.write file
            (List.replicate moreNeeded.toNat 0) currLen
          ({latestWrite := some r.1.latestWrite, dirtyPtrs := r.1.dirtyPtrs,
            newlyDirtiedChildBytes := r.1.newlyDirtiedChildBytes,
            err := r.1.err, action := some (.extendWrite moreNeeded)}, r.2)
        else if currLen = iSize ∧ nextBlockOff < 0 then
          -- same size!
          ({action := some .noop}, st1)
        else
          match o.getEntry with
          | .error e => ({err := some e, action := some .shrink}, st1)
          | .ok de =>
            match getOrCreateSyncInfoLocked st1 de o.newSyncOpErr with
            | .error e => ({err := some e, action := some .shrink}, st1)
            | .ok (_si, st2) =>
              let bytes := o.truncShrinkNewlyDirtiedChildBytes
              let st3 := {st2 with dirtyBcache := {st2.dirtyBcache with
                dirty := st2.dirtyBcache.dirty ++ o.truncShrinkDirtyPtrs}}
              -- Record the unrefs before checking the error so we
              -- remember the state of newly dirtied blocks.
              let cacheWithUnrefs := aupdate st3.unrefCache de.Ref
                (fun si => {si with unrefs := si.unrefs ++ o.truncShrinkUnrefs})
              let st4 := {st3 with unrefCache := cacheWithUnrefs}
              match o.truncShrinkErr with
              | some e =>
                ({newlyDirtiedChildBytes := bytes, err := some e,
                  action := some .shrink}, st4)
              | none =>
                let st5 := getOrCreateDirtyFileLocked st4 file
                let st6 := applyDfNotYetSyncingBytes st5 file.tailPointer bytes
                let cacheWithTrunc := aupdate st6.unrefCache de.Ref
                  (fun si => {si with op := (si.op.addTruncate size).2})
                let st7 := {st6 with unrefCache := cacheWithTrunc}
                let newDe := {o.truncShrinkNewDe with
                  mtime := o.nowNanos, ctime := o.nowNanos}
                match updateEntryLocked st7 file newDe o.updateEntryErr
                    o.updateEntryUnrefs with
                | .error e =>
                  ({newlyDirtiedChildBytes := bytes, err := some e,
                    action := some .shrink}, st7)
                | .ok st8 =>
                  ({latestWrite := some {off := size, len := 0},
                    dirtyPtrs := o.truncShrinkDirtyPtrs,
                    newlyDirtiedChildBytes := bytes,
                    action := some .shrink}, st8)

/-- C3: the four-way branch of `truncateLocked`, with
`currLen = startOff + len(block.Contents)` the end of the content at
the target offset: a requested size more than 128 KiB past `currLen`
takes the hole-creating extend path; a size greater than `currLen` by
at most 128 KiB (including exactly 128 KiB) is delegated to
`writeDataLocked` with that many zero bytes; a size equal to `currLen`
with no further block is a no-op returning no write range; everything
else takes the shrink path. -/
theorem truncateLocked_decision (st0 : FboState) (o : TruncOracle)
    (file : KbfsPath) (size : Nat) (fb : FileBlock) (startOff : Int)
    (contentsLen : Nat) (nextBlockOff : Int)
    (hget : o.writeGetFile = .ok fb)
    (hchg : (getChargedToLocked st0 o.chargedToFetch).isOk = true)
    (hoff : o.atOffset = .ok (startOff, contentsLen, nextBlockOff)) :
    (startOff + (contentsLen : Int) + truncateExtendCutoffPoint < (size : Int) →
      (truncateLocked st0 o file size).1.action = some .extendHole) ∧
    (startOff + (contentsLen : Int) < (size : Int) ∧
        (size : Int) ≤ startOff + (contentsLen : Int) + truncateExtendCutoffPoint →
      (truncateLocked st0 o file size).1.action =
        some (.extendWrite ((size : Int) - (startOff + (contentsLen : Int))))) ∧
    (startOff + (contentsLen : Int) = (size : Int) ∧ nextBlockOff < 0 →
      (truncateLocked st0 o file size).1 = {action := some .noop}) ∧
    (((size : Int) < startOff + (contentsLen : Int) ∨
        (startOff + (contentsLen : Int) = (size : Int) ∧ 0 ≤ nextBlockOff)) →
      (truncateLocked st0 o file size).1.action = some .shrink) := by
  cases hchg' : getChargedToLocked st0 o.chargedToFetch with
  | error e =>
    rw [hchg'] at hchg
    exact Bool.noConfusion hchg
  | ok pr =>
    obtain ⟨cid, st1⟩ := pr
    unfold truncateLocked
    simp only [hget, hchg', hoff]
    refine ⟨?_, ?_, ?_, ?_⟩
    · intro h
      rw [if_pos h]
    · intro h
      have h1 : ¬(startOff + (contentsLen : Int) + truncateExtendCutoffPoint <
          (size : Int)) := by omega
      rw [if_neg h1, if_pos h.1]
    · intro h
      have h1 : ¬(startOff + (contentsLen : Int) + truncateExtendCutoffPoint <
          (size : Int)) := by
        unfold truncateExtendCutoffPoint
        omega
      have h2 : ¬(startOff + (contentsLen : Int) < (size : Int)) := by omega
      rw [if_neg h1, if_neg h2, if_pos h]
    · intro h
      have h1 : ¬(startOff + (contentsLen : Int) + truncateExtendCutoffPoint <
          (size : Int)) := by
        unfold truncateExtendCutoffPoint
        omega
      have h2 : ¬(startOff + (contentsLen : Int) < (size : Int)) := by omega
      have h3 : ¬(startOff + (contentsLen : Int) = (size : Int) ∧
          nextBlockOff < 0) := by
        rcases h with h | ⟨he, hge⟩
        · exact fun hc => by omega
        · exact fun hc => by omega
      rw [if_neg h1, if_neg h2, if_neg h3]
      repeat first | rfl | split

/-- Witness for C3 at concrete inputs: content ends at byte 5 with no
further block.  Truncating to 5 is a no-op with no write range;
truncating to `5 + 128 KiB` delegates to the zero-filling write path;
truncating to `5 + 128 KiB + 1` takes the hole path; truncating to 3
takes the shrink path. -/
theorem truncateLocked_decision_witness :
    let file : KbfsPath :=
      ⟨[{ptr := {id := 9, refNonce := 0, valid := true}, name := "d"},
        {ptr := {id := 1, refNonce := 0, valid := true}, name := "f"}]⟩
    let o : TruncOracle := {atOffset := .ok (0, 5, -1)}
    (truncateLocked {} o file 5).1 = {action := some .noop} ∧
    (truncateLocked {} o file (5 + 128 * 1024)).1.action =
      some (.extendWrite (128 * 1024)) ∧
    (truncateLocked {} o file (5 + 128 * 1024 + 1)).1.action =
      some .extendHole ∧
    (truncateLocked {} o file 3).1.action = some .shrink := by
  intro file o
  have h5 := truncateLocked_decision {} o file 5 {} 0 5 (-1) rfl (by decide) rfl
  have hw := truncateLocked_decision {} o file (5 + 128 * 1024) {} 0 5 (-1)
    rfl (by decide) rfl
  have hh := truncateLocked_decision {} o file (5 + 128 * 1024 + 1) {} 0 5
    (-1) rfl (by decide) rfl
  have hs := truncateLocked_decision {} o file 3 {} 0 5 (-1) rfl (by decide)
    rfl
  refine ⟨h5.2.2.1 (by constructor <;> omega), ?_, ?_, ?_⟩
  · have := hw.2.1 ⟨by omega, by
      unfold truncateExtendCutoffPoint
      omega⟩
    rw [this]
    norm_num
  · exact hh.1 (by
      unfold truncateExtendCutoffPoint
      omega)
  · exact hs.2.2.2 (Or.inl (by omega))

/-- The unrefs currently recorded in a file's `syncInfo` (empty when
none exists yet). -/
def unrefsAt (st : FboState) (ref : BlockRef) : List BlockInfo :=
  match alookup st.unrefCache ref with
  | some si => si.unrefs
  | none => []

theorem updateEntryLocked_ok_unrefCache (st st' : FboState) (file : KbfsPath)
    (de : DirEntry) (adapterErr : Option EngineErr) (unrefs : List BlockInfo)
    (h : updateEntryLocked st file de adapterErr unrefs = .ok st') :
    st'.unrefCache = st.unrefCache := by
  unfold updateEntryLocked at h
  cases he : adapterErr with
  | some e =>
    rw [he] at h
    exact Except.noConfusion h
  | none =>
    rw [he] at h
    injection h with h'
    subst h'
    rfl

theorem getOrCreateDirtyFileLocked_unrefCache (st : FboState)
    (file : KbfsPath) :
    (getOrCreateDirtyFileLocked st file).unrefCache = st.unrefCache := by
  unfold getOrCreateDirtyFileLocked
  cases alookup st.dirtyFiles file.tailPointer <;> rfl

/-- C7: in both `writeDataLocked` and `truncateLocked` (shrink path),
the unrefs returned by the file-data adapter (`fd.write` resp.
`fd.truncateShrink`) are appended to the file's `SyncInfo.unrefs`
before the adapter's error is checked: in the returned state the
`syncInfo` holds the old unrefs plus the adapter's unrefs, whether or
not the adapter reported an error. -/
theorem adapter_unrefs_recorded_before_error_check :
    (∀ (st0 : FboState) (o : WriteOracle) (file : KbfsPath)
       (data : List Nat) (off : Int) (fb : FileBlock) (de : DirEntry),
      o.writeGetFile = .ok fb →
      (getChargedToLocked st0 o.chargedToFetch).isOk = true →
      o.getEntry = .ok de →
      (alookup st0.unrefCache de.Ref ≠ none ∨ o.newSyncOpErr = none) →
      (alookup (writeDataLocked st0 o file data off).2.unrefCache
          de.Ref).map SyncInfo.unrefs =
        some (unrefsAt st0 de.Ref ++ o.fdWriteUnrefs)) ∧
    (∀ (st0 : FboState) (o : TruncOracle) (file : KbfsPath) (size : Nat)
       (fb : FileBlock) (startOff : Int) (contentsLen : Nat)
       (nextBlockOff : Int) (de : DirEntry),
      o.writeGetFile = .ok fb →
      (getChargedToLocked st0 o.chargedToFetch).isOk = true →
      o.atOffset = .ok (startOff, contentsLen, nextBlockOff) →
      (size : Int) ≤ startOff + (contentsLen : Int) →
      ¬(startOff + (contentsLen : Int) = (size : Int) ∧ nextBlockOff < 0) →
      o.getEntry = .ok de →
      (alookup st0.unrefCache de.Ref ≠ none ∨ o.newSyncOpErr = none) →
      (alookup (truncateLocked st0 o file size).2.unrefCache
          de.Ref).map SyncInfo.unrefs =
        some (unrefsAt st0 de.Ref ++ o.truncShrinkUnrefs)) := by
  constructor
  · intro st0 o file data off fb de hget hchg hde hsi
    cases hchg' : getChargedToLocked st0 o.chargedToFetch with
    | error e =>
      rw [hchg'] at hchg
      exact Bool.noConfusion hchg
    | ok pr =>
      obtain ⟨cid, st1⟩ := pr
      have hst1 : st1 = {st0 with chargedTo := some cid} :=
        getChargedToLocked_ok st0 o.chargedToFetch cid st1 hchg'
      unfold writeDataLocked
      simp only [hget, hchg', hde]
      have hcache2 :
          (getOrCreateDirtyFileLocked st1 file).unrefCache =
            st0.unrefCache := by
        rw [getOrCreateDirtyFileLocked_unrefCache, hst1]
      cases hlook : alookup st0.unrefCache de.Ref with
      | some si0 =>
        have hlook2 :
            alookup (getOrCreateDirtyFileLocked st1 file).unrefCache de.Ref =
              some si0 := by rw [hcache2, hlook]
        unfold getOrCreateSyncInfoLocked
        simp only [hlook2]
        have hrecorded :
            ∀ m : List (BlockRef × SyncInfo), alookup m de.Ref = some si0 →
            (alookup (aupdate m de.Ref (fun si => {si with
                unrefs := si.unrefs ++ o.fdWriteUnrefs})) de.Ref).map
              SyncInfo.unrefs =
              some (unrefsAt st0 de.Ref ++ o.fdWriteUnrefs) := by
          intro m hm
          rw [alookup_aupdate_self, hm]
          simp [unrefsAt, hlook]
        cases hfe : o.fdWriteErr with
        | some e =>
          simp only [hfe, applyDfNotYetSyncingBytes]
          exact hrecorded _ hlook2
        | none =>
          simp only [hfe]
          cases hue : updateEntryLocked
              {getOrCreateDirtyFileLocked st1 file with
                dirtyBcache := {(getOrCreateDirtyFileLocked st1 file).dirtyBcache
                  with dirty :=
                    (getOrCreateDirtyFileLocked st1 file).dirtyBcache.dirty ++
                      o.fdWriteDirtyPtrs},
                doDeferWrite :=
                  (getOrCreateDirtyFileLocked st1 file).doDeferWrite ||
                    o.fdWriteSetsDoDefer,
                unrefCache := aupdate
                  (getOrCreateDirtyFileLocked st1 file).unrefCache de.Ref
                  (fun si => {si with
                    unrefs := si.unrefs ++ o.fdWriteUnrefs})}
              file
              {o.fdWriteNewDe with mtime := o.nowNanos, ctime := o.nowNanos}
              o.updateEntryErr o.updateEntryUnrefs with
          | error e =>
            simp only [hue, applyDfNotYetSyncingBytes]
            exact hrecorded _ hlook2
          | ok st6 =>
            simp only [hue]
            have h6 := updateEntryLocked_ok_unrefCache _ _ _ _ _ _ hue
            have h6' : alookup st6.unrefCache de.Ref =
                some {si0 with unrefs := si0.unrefs ++ o.fdWriteUnrefs} := by
              rw [h6]
              rw [alookup_aupdate_self, hlook2]
              rfl
            cases hdd : st6.doDeferWrite with
            | false =>
              simp only [hdd, Bool.false_eq_true, reduceIte]
              simp [applyDfNotYetSyncingBytes, alookup_aupdate_self, h6',
                unrefsAt, hlook]
            | true =>
              simp only [hdd, reduceIte]
              simp [applyDfNotYetSyncingBytes, alookup_aupdate_self, h6',
                unrefsAt, hlook]
      | none =>
        have hnse : o.newSyncOpErr = none := by
          rcases hsi with hc | hc
          · exact absurd hlook hc
          · exact hc
        have hlook2 :
            alookup (getOrCreateDirtyFileLocked st1 file).unrefCache de.Ref =
              none := by rw [hcache2, hlook]
        unfold getOrCreateSyncInfoLocked
        simp only [hlook2, hnse]
        have hfresh :
            alookup (aupsert
              (getOrCreateDirtyFileLocked st1 file).unrefCache de.Ref
              {oldInfo := de.info, op := {}}) de.Ref =
              some {oldInfo := de.info, op := {}} :=
          alookup_aupsert_self _ _ _
        have hrecorded :
            ∀ m : List (BlockRef × SyncInfo),
            alookup m de.Ref = some {oldInfo := de.info, op := {}} →
            (alookup (aupdate m de.Ref (fun si => {si with
                unrefs := si.unrefs ++ o.fdWriteUnrefs})) de.Ref).map
              SyncInfo.unrefs =
              some (unrefsAt st0 de.Ref ++ o.fdWriteUnrefs) := by
          intro m hm
          rw [alookup_aupdate_self, hm]
          simp [unrefsAt, hlook]
        cases hfe : o.fdWriteErr with
        | some e =>
          simp only [hfe, applyDfNotYetSyncingBytes]
          exact hrecorded _ hfresh
        | none =>
          simp only [hfe]
          cases hue : updateEntryLocked
              {getOrCreateDirtyFileLocked st1 file with
                dirtyBcache := {(getOrCreateDirtyFileLocked st1 file).dirtyBcache
                  with dirty :=
                    (getOrCreateDirtyFileLocked st1 file).dirtyBcache.dirty ++
                      o.fdWriteDirtyPtrs},
                doDeferWrite :=
                  (getOrCreateDirtyFileLocked st1 file).doDeferWrite ||
                    o.fdWriteSetsDoDefer,
                unrefCache := aupdate
                  (aupsert (getOrCreateDirtyFileLocked st1 file).unrefCache
                    de.Ref {oldInfo := de.info, op := {}}) de.Ref
                  (fun si => {si with
                    unrefs := si.unrefs ++ o.fdWriteUnrefs})}
              file
              {o.fdWriteNewDe with mtime := o.nowNanos, ctime := o.nowNanos}
              o.updateEntryErr o.updateEntryUnrefs with
          | error e =>
            simp only [hue, applyDfNotYetSyncingBytes]
            exact hrecorded _ hfresh
          | ok st6 =>
            simp only [hue]
            have h6 := updateEntryLocked_ok_unrefCache _ _ _ _ _ _ hue
            have h6' : alookup st6.unrefCache de.Ref =
                some {oldInfo := de.info, op := ({} : SyncOp),
                      unrefs := [] ++ o.fdWriteUnrefs} := by
              rw [h6]
              rw [alookup_aupdate_self, hfresh]
              rfl
            cases hdd : st6.doDeferWrite with
            | false =>
              simp only [hdd, Bool.false_eq_true, reduceIte]
              simp [applyDfNotYetSyncingBytes, alookup_aupdate_self, h6',
                unrefsAt, hlook]
            | true =>
              simp only [hdd, reduceIte]
              simp [applyDfNotYetSyncingBytes, alookup_aupdate_self, h6',
                unrefsAt, hlook]
  · intro st0 o file size fb startOff contentsLen nextBlockOff de hget hchg
      hoff hle hnn hde hsi
    cases hchg' : getChargedToLocked st0 o.chargedToFetch with
    | error e =>
      rw [hchg'] at hchg
      exact Bool.noConfusion hchg
    | ok pr =>
      obtain ⟨cid, st1⟩ := pr
      have hst1 : st1 = {st0 with chargedTo := some cid} :=
        getChargedToLocked_ok st0 o.chargedToFetch cid st1 hchg'
      unfold truncateLocked
      simp only [hget, hchg', hoff, hde]
      have h1 : ¬(startOff + (contentsLen : Int) + truncateExtendCutoffPoint <
          (size : Int)) := by
        unfold truncateExtendCutoffPoint
        omega
      have h2 : ¬(startOff + (contentsLen : Int) < (size : Int)) := by omega
      rw [if_neg h1, if_neg h2, if_neg hnn]
      have hcache1 : st1.unrefCache = st0.unrefCache := by rw [hst1]
      cases hlook : alookup st0.unrefCache de.Ref with
      | some si0 =>
        have hlook1 : alookup st1.unrefCache de.Ref = some si0 := by
          rw [hcache1, hlook]
        unfold getOrCreateSyncInfoLocked
        simp only [hlook1]
        have hrecorded :
            (alookup (aupdate st1.unrefCache de.Ref (fun si => {si with
                unrefs := si.unrefs ++ o.truncShrinkUnrefs})) de.Ref).map
              SyncInfo.unrefs =
              some (unrefsAt st0 de.Ref ++ o.truncShrinkUnrefs) := by
          rw [alookup_aupdate_self, hlook1]
          simp [unrefsAt, hlook]
        cases hte : o.truncShrinkErr with
        | some e =>
          simp only [hte]
          exact hrecorded
        | none =>
          simp only [hte]
          -- the remaining mutations (dirty-file creation, byte update,
          -- `addTruncate`, entry update) leave the recorded unrefs intact
          generalize hbig : updateEntryLocked _ file
            {o.truncShrinkNewDe with
              mtime := o.nowNanos, ctime := o.nowNanos}
            o.updateEntryErr o.updateEntryUnrefs = upres
          cases upres with
          | error e =>
            simp [applyDfNotYetSyncingBytes,
              getOrCreateDirtyFileLocked_unrefCache, alookup_aupdate_self,
              hlook1, unrefsAt, hlook]
          | ok st8 =>
            have h8 := updateEntryLocked_ok_unrefCache _ _ _ _ _ _ hbig
            simp [h8, applyDfNotYetSyncingBytes,
              getOrCreateDirtyFileLocked_unrefCache, alookup_aupdate_self,
              hlook1, unrefsAt, hlook]
      | none =>
        have hnse : o.newSyncOpErr = none := by
          rcases hsi with hc | hc
          · exact absurd hlook hc
          · exact hc
        have hlook1 : alookup st1.unrefCache de.Ref = none := by
          rw [hcache1, hlook]
        unfold getOrCreateSyncInfoLocked
        simp only [hlook1, hnse]
        have hfresh :
            alookup (aupsert st1.unrefCache de.Ref
              {oldInfo := de.info, op := {}}) de.Ref =
              some {oldInfo := de.info, op := {}} :=
          alookup_aupsert_self _ _ _
        cases hte : o.truncShrinkErr with
        | some e =>
          simp only [hte]
          simp [alookup_aupdate_self, alookup_aupsert_self, unrefsAt, hlook]
        | none =>
          simp only [hte]
          generalize hbig : updateEntryLocked _ file
            {o.truncShrinkNewDe with
              mtime := o.nowNanos, ctime := o.nowNanos}
            o.updateEntryErr o.updateEntryUnrefs = upres
          cases upres with
          | error e =>
            simp [applyDfNotYetSyncingBytes,
              getOrCreateDirtyFileLocked_unrefCache, alookup_aupdate_self,
              alookup_aupsert_self, unrefsAt, hlook]
          | ok st8 =>
            have h8 := updateEntryLocked_ok_unrefCache _ _ _ _ _ _ hbig
            simp [h8, applyDfNotYetSyncingBytes,
              getOrCreateDirtyFileLocked_unrefCache, alookup_aupdate_self,
              alookup_aupsert_self, unrefsAt, hlook]

/-- Witness for C7: the adapters fail, yet the returned states hold the
adapter unrefs in the file's `syncInfo`. -/
theorem adapter_unrefs_recorded_before_error_check_witness :
    let p : BlockPointer := {id := 4, refNonce := 0, valid := true}
    let file : KbfsPath :=
      ⟨[{ptr := {id := 9, refNonce := 0, valid := true}, name := "d"},
        {ptr := p, name := "f"}]⟩
    let de : DirEntry := {info := {ptr := p, encodedSize := 11}}
    let u1 : BlockInfo :=
      {ptr := {id := 6, refNonce := 0, valid := true}, encodedSize := 3}
    let ow : WriteOracle :=
      {getEntry := .ok de, fdWriteUnrefs := [u1], fdWriteErr := some {code := 77}}
    let ot : TruncOracle :=
      {atOffset := .ok (0, 5, -1), getEntry := .ok de,
       truncShrinkUnrefs := [u1], truncShrinkErr := some {code := 78}}
    (alookup (writeDataLocked {} ow file [1] 0).2.unrefCache de.Ref).map
        SyncInfo.unrefs = some [u1] ∧
    (alookup (truncateLocked {} ot file 3).2.unrefCache de.Ref).map
        SyncInfo.unrefs = some [u1] := by
  intro p file de u1 ow ot
  constructor
  · have h := adapter_unrefs_recorded_before_error_check.1 {} ow file [1] 0
      {} de rfl (by decide) rfl (Or.inr rfl)
    rw [h]
    rfl
  · have h := adapter_unrefs_recorded_before_error_check.2 {} ot file 3
      {} 0 5 (-1) de rfl (by decide) rfl (by omega) (by omega) rfl
      (Or.inr rfl)
    rw [h]
    rfl

/-! ## `FinishSyncLocked` and deferred-write replay (C5) -/

/-- Delete a list of pointers from the dirty block cache in order,
stopping at the first `Delete` failure (the cache keeps the deletions
made so far). -/
def dirtyBcacheDeleteAll (c : DirtyBcacheModel) :
    List BlockPointer → DirtyBcacheModel × Option EngineErr
  | [] => (c, none)
  | ptr :: rest =>
    match c.Delete ptr with
    | .error e => (c, some e)
    | .ok c' => dirtyBcacheDeleteAll c' rest

/-- Replay the queued deferred writes in order, surfacing the first
replay error.  (The closures re-run `writeDataLocked`/`truncateLocked`
against the post-sync path; the closures are carried as their recorded
outcomes, see `DeferredWrite`.) -/
def runDeferredWrites : List DeferredWrite → Option EngineErr
  | [] => none
  | w :: rest =>
    match w.replayErr with
    | some e => some e
    | none => runDeferredWrites rest

/-- `doDeferredWritesLocked` (source lines 2868-2898): compute
`stillDirty` from the queued writes, drop the deferred entry, delete
the transient dirty blocks, then replay the writes against the new
path. -/
def doDeferredWritesLocked (st : FboState) (oldPath : KbfsPath) :
    (Bool × Option EngineErr) × FboState :=
  let ds := (alookup st.deferred oldPath.tailRef).getD {}
  let stillDirty := !ds.writes.isEmpty
  let st1 := {st with deferred := aerase st.deferred oldPath.tailRef}
  let del := dirtyBcacheDeleteAll st1.dirtyBcache ds.dirtyDeletes
  let st2 := {st1 with dirtyBcache := del.1}
  match del.2 with
  | some e => ((true, some e), st2)
  | none =>
    match runDeferredWrites ds.writes with
    | some e => ((true, some e), st2)
    | none => ((stillDirty, none), st2)

theorem doDeferredWritesLocked_stillDirty (st : FboState)
    (oldPath : KbfsPath) (sd : Bool) (st' : FboState)
    (h : doDeferredWritesLocked st oldPath = ((sd, none), st')) :
    sd = !((alookup st.deferred oldPath.tailRef).getD {}).writes.isEmpty := by
  unfold doDeferredWritesLocked at h
  dsimp only [] at h
  split at h
  · injection h with h1 h2
    injection h1 with h3 h4
    exact Option.noConfusion h4
  · split at h
    · injection h with h1 h2
      injection h1 with h3 h4
      exact Option.noConfusion h4
    · injection h with h1 h2
      injection h1 with h3 h4
      exact h3.symm

/-- The `fileSyncState` produced by `StartSync` that `FinishSyncLocked`
and `CleanupSyncState` consume.  `siKey` stands for the `si` pointer
(aliasing the `unrefCache` entry under that ref); the saved sync info
and the top-block snapshot presence are carried for the cleanup path. -/
structure FileSyncState where
  oldFileBlockPtrs : List BlockPointer := []
  newIndirectFileBlockPtrs : List BlockPointer := []
  siKey : Option BlockRef := none
  savedSi : Option SyncInfo := none
  fblockPresent : Bool := false
  redirtyOnRecoverableError : List (BlockPointer × BlockPointer) := []
deriving DecidableEq, Repr

/-- Phase 1 of `FinishSyncLocked`: delete each old file block pointer
from the dirty cache (first failure aborts). -/
def finishSyncPhase1 (st : FboState) (ss : FileSyncState) :
    FboState × Option EngineErr :=
  let del := dirtyBcacheDeleteAll st.dirtyBcache ss.oldFileBlockPtrs
  ({st with dirtyBcache := del.1}, del.2)

/-- Phase 2 of `FinishSyncLocked`: `DeletePermanent` each readied
indirect block from the clean cache (errors are only logged). -/
def finishSyncPhase2 (st : FboState) (ss : FileSyncState) : FboState :=
  let newIDs := ss.newIndirectFileBlockPtrs.map BlockPointer.id
  {st with cleanCachePermanentIDs :=
    st.cleanCachePermanentIDs.filter (fun i => !newIDs.contains i)}

/-- `FinishSyncLocked` (source lines 2903-2951): delete the old file
block pointers from the dirty cache, drop the readied indirect blocks
from the permanent clean cache (errors there are only logged), replay
deferred writes, clear the file's cached info, and clean up unused
blocks from prior failed attempts (`cleanUpUnusedBlocks` only calls out
to the block manager and returns nil in the source).  Every error path
returns `stillDirty = true`. -/
def FinishSyncLocked (st : FboState) (oldPath _newPath : KbfsPath)
    (syncState : FileSyncState) : (Bool × Option EngineErr) × FboState :=
  let p1 := finishSyncPhase1 st syncState
  match p1.2 with
  | some e => ((true, some e), p1.1)
  | none =>
    let st2 := finishSyncPhase2 p1.1 syncState
    let dw := doDeferredWritesLocked st2 oldPath
    match dw.1.2 with
    | some e => ((true, some e), dw.2)
    | none =>
      match clearCacheInfoLocked dw.2 oldPath with
      | .error e => ((true, some e), dw.2)
      | .ok st4 => ((dw.1.1, none), st4)

/-- C5 counterexample: a dirty-cache `Delete` failure on an old file
block pointer makes `FinishSyncLocked` return `stillDirty = true` even
though no deferred write was queued for `oldPath.tailRef`, refuting the
claimed iff for calls that return an error. -/
theorem FinishSyncLocked_stillDirty_counterexample :
    let p : BlockPointer := {id := 1, refNonce := 0, valid := true}
    let oldPath : KbfsPath := ⟨[{ptr := p, name := "f"}]⟩
    let st : FboState := {dirtyBcache := {dirty := [p], deleteErrs := [p]}}
    let r := FinishSyncLocked st oldPath oldPath {oldFileBlockPtrs := [p]}
    r.1.1 = true ∧ alookup st.deferred oldPath.tailRef = none := by
  exact ⟨by decide, by decide⟩

/-- C5, amended: for every call to `FinishSyncLocked` that returns
without error, the returned `stillDirty` flag is true iff at least one
deferred write closure was queued for `oldPath.tailRef` at the time of
the call (error returns always report `stillDirty = true`). -/
theorem FinishSyncLocked_stillDirty_amended (st st' : FboState)
    (oldPath newPath : KbfsPath) (ss : FileSyncState) (sd : Bool)
    (h : FinishSyncLocked st oldPath newPath ss = ((sd, none), st')) :
    sd = !((alookup st.deferred oldPath.tailRef).getD {}).writes.isEmpty := by
  unfold FinishSyncLocked at h
  dsimp only [] at h
  split at h
  · injection h with h1 h2
    injection h1 with h3 h4
    exact Option.noConfusion h4
  · split at h
    · injection h with h1 h2
      injection h1 with h3 h4
      exact Option.noConfusion h4
    · rename_i heqDw
      split at h
      · injection h with h1 h2
        injection h1 with h3 h4
        exact Option.noConfusion h4
      · injection h with h1 h2
        injection h1 with h3 h4
        have hdw : doDeferredWritesLocked
            (finishSyncPhase2 (finishSyncPhase1 st ss).1 ss) oldPath =
            ((sd, none),
              (doDeferredWritesLocked
                (finishSyncPhase2 (finishSyncPhase1 st ss).1 ss) oldPath).2) := by
          rw [← h3, ← heqDw]
        have hconc := doDeferredWritesLocked_stillDirty _ oldPath sd _ hdw
        exact hconc

/-- Witness for the amended C5: one queued deferred write, no failures;
`FinishSyncLocked` succeeds with `stillDirty = true`. -/
theorem FinishSyncLocked_stillDirty_amended_witness :
    let p : BlockPointer := {id := 1, refNonce := 0, valid := true}
    let oldPath : KbfsPath := ⟨[{ptr := p, name := "f"}]⟩
    let st : FboState := {deferred := [(p.Ref, {writes := [{}]})]}
    (true : Bool) =
      !((alookup st.deferred oldPath.tailRef).getD {}).writes.isEmpty := by
  intro p oldPath st
  exact FinishSyncLocked_stillDirty_amended st {} oldPath oldPath {} true
    (by decide)

/-! ## `CleanupSyncState` and error-listener notification (C6) -/

/-- `notifyErrListenersLocked` (source lines 2955-2970): deliver the
error to the listeners registered on the file's `dirtyFile` — but only
when the error is not a recoverable block error, since a recoverable
sync will be retried.  Returns the deliveries made (listener, error)
and the state with the notified listeners drained. -/
def notifyErrListenersLocked (st : FboState) (ptr : BlockPointer)
    (e : EngineErr) : FboState × List (Nat × EngineErr) :=
  if isRecoverableBlockError e then
    -- Don't bother any listeners with this error, since the sync
    -- will be retried.
    (st, [])
  else
    match alookup st.dirtyFiles ptr with
    | none => (st, [])
    | some df =>
      let newFiles := aupdate st.dirtyFiles ptr
        (fun d => {d with errListeners := []})
      ({st with dirtyFiles := newFiles}, df.errListeners.map (fun l => (l, e)))

/-- `revertSyncInfoAfterRecoverableError` (source lines 2346-2393):
reset the file's `syncInfo` to the saved copy, preserving
`toCleanIfUnused` and the unrefs that do not belong to newly-created
indirect blocks.  (The `bps.blockStates` filtering is not modelled;
`bps` is opaque here.) -/
def revertSyncInfoAfterRecoverableError (st : FboState)
    (result : FileSyncState) : FboState :=
  match result.siKey, result.savedSi with
  | some key, some savedSi =>
    let newCache := aupdate st.unrefCache key (fun si =>
      {savedSi with
        toCleanIfUnused := si.toCleanIfUnused,
        unrefs := si.unrefs.filter
          (fun u => !result.newIndirectFileBlockPtrs.contains u.ptr)})
    {st with unrefCache := newCache}
  | _, _ => st

/-- `fixChildBlocksAfterRecoverableErrorLocked` (source lines
1577-1657): un-orphan the old pointers, re-dirty the readied blocks
under their new pointers and delete the old dirty entries (the
`findIPtrsAndClearSize` top-block surgery is summarized by these cache
effects), and always clear `doDeferWrite` on the way out. -/
def fixChildBlocksAfterRecoverableErrorLocked (st : FboState)
    (file : KbfsPath) (redirty : List (BlockPointer × BlockPointer)) :
    FboState :=
  let st1 :=
    match alookup st.dirtyFiles file.tailPointer with
    | none => st
    | some _ =>
      let newFiles := aupdate st.dirtyFiles file.tailPointer
        (fun df => redirty.foldl
          (fun d (pr : BlockPointer × BlockPointer) =>
            d.setBlockOrphaned pr.2 false) df)
      {st with dirtyFiles := newFiles}
  let oldPtrs := redirty.map Prod.snd
  let newDirty := (st1.dirtyBcache.dirty.filter
    (fun q => !oldPtrs.contains q)) ++ redirty.map Prod.fst
  let st2 := {st1 with dirtyBcache := {st1.dirtyBcache with
    dirty := newDirty}}
  {st2 with doDeferWrite := false}

/-- `CleanupSyncState` (source lines 2723-2798), under the lock (the
journal bracketing is dropped).  Returns the post-cleanup state and the
error-listener deliveries that were made. -/
def CleanupSyncState (st : FboState) (file : KbfsPath)
    (result : FileSyncState) (err : Option EngineErr) :
    FboState × List (Nat × EngineErr) :=
  match err with
  | none => (st, [])
  | some e =>
    -- Notify error listeners before resetting the dirty blocks.
    let notified := notifyErrListenersLocked st file.tailPointer e
    let st1 := notified.1
    -- Back out changes to the sync op and save this MD for later
    -- cleanup (modelled as resetting the op's update state and
    -- bumping the toCleanIfUnused count on the aliased syncInfo).
    let st2 :=
      match result.siKey with
      | none => st1
      | some key =>
        let newCache := aupdate st1.unrefCache key (fun si =>
          {si with op := si.op.resetUpdateState,
                   toCleanIfUnused := si.toCleanIfUnused + 1})
        {st1 with unrefCache := newCache}
    let st3 :=
      if isRecoverableBlockError e then
        let st3a :=
          match result.siKey with
          | none => st2
          | some _ => revertSyncInfoAfterRecoverableError st2 result
        if result.fblockPresent then
          fixChildBlocksAfterRecoverableErrorLocked st3a file
            result.redirtyOnRecoverableError
        else st3a
      else
        let ds := (alookup st2.deferred file.tailRef).getD {}
        let st3a :=
          match alookup st2.dirtyFiles file.tailPointer with
          | none => st2
          | some df =>
            let newFiles := aupdate st2.dirtyFiles file.tailPointer
              (fun d => d.updateNotYetSyncingBytes (-ds.waitBytes))
            let orphaned := result.oldFileBlockPtrs.filter
              (fun q => df.isBlockOrphaned q &&
                !st2.dirtyBcache.deleteErrs.contains q)
            let newDirty := st2.dirtyBcache.dirty.filter
              (fun q => !orphaned.contains q)
            {st2 with dirtyFiles := newFiles,
                      dirtyBcache := {st2.dirtyBcache with dirty := newDirty}}
        {st3a with deferred := aerase st3a.deferred file.tailRef}
    -- Old syncing blocks are now just dirty.
    let st4 :=
      match alookup st3.dirtyFiles file.tailPointer with
      | none => st3
      | some _ =>
        let newFiles := aupdate st3.dirtyFiles file.tailPointer
          DirtyFile.resetSyncingBlocksToDirty
        {st3 with dirtyFiles := newFiles}
    (st4, notified.2)

/-- C6: when `CleanupSyncState` is called with a non-nil error, the
error listeners registered on the file's `DirtyFile` are notified with
that error iff the error is not a recoverable block error; for a
recoverable block error no listener receives it. -/
theorem CleanupSyncState_notifies_iff_unrecoverable (st : FboState)
    (file : KbfsPath) (result : FileSyncState) (e : EngineErr) :
    (CleanupSyncState st file result (some e)).2 =
      (if isRecoverableBlockError e then []
       else (((alookup st.dirtyFiles file.tailPointer).map
         DirtyFile.errListeners).getD []).map (fun l => (l, e))) := by
  unfold CleanupSyncState notifyErrListenersLocked
  dsimp only []
  by_cases hrec : isRecoverableBlockError e = true
  · simp [hrec]
  · have hrec' : isRecoverableBlockError e = false := by
      cases hv : isRecoverableBlockError e
      · rfl
      · exact absurd hv hrec
    cases hdf : alookup st.dirtyFiles file.tailPointer with
    | none => simp [hrec', hdf]
    | some df => simp [hrec', hdf]

/-! ## Directory-entry cache mutations and `RenameDirEntryInCache` (C8) -/

/-- The cached (possibly dirty) listing of a directory. -/
def dirListing (st : FboState) (dir : KbfsPath) : List (String × DirEntry) :=
  (alookup st.dirContents dir.tailPointer).getD []

def setDirListing (st : FboState) (dir : KbfsPath)
    (l : List (String × DirEntry)) : FboState :=
  {st with dirContents := aupsert st.dirContents dir.tailPointer l}

/-- Modelled from the spec (§4.3; `dir_data.go` is not under `src/`):
`dd.lookup` finds the entry or fails with `NoSuchName`. -/
def dirDataLookup (st : FboState) (dir : KbfsPath) (name : String) :
    Except EngineErr DirEntry :=
  match alookup (dirListing st dir) name with
  | some de => .ok de
  | none => .error {code := 110}

/-- Modelled from the spec (§4.3): `dd.addEntry` fails when the name
already exists, otherwise inserts the entry.  The unrefs produced by
block splitting are not modelled (always empty). -/
def dirDataAddEntry (st : FboState) (dir : KbfsPath) (name : String)
    (de : DirEntry) : Except EngineErr (List BlockInfo × FboState) :=
  if (alookup (dirListing st dir) name).isSome then
    .error {code := 109}
  else
    .ok ([], setDirListing st dir (aupsert (dirListing st dir) name de))

/-- Modelled from the spec (§4.3): `dd.removeEntry` drops the name. -/
def dirDataRemoveEntry (st : FboState) (dir : KbfsPath) (name : String) :
    List BlockInfo × FboState :=
  ([], setDirListing st dir (aerase (dirListing st dir) name))

/-- Modelled from the spec (§4.3): `dd.updateEntry` replaces an
existing entry or fails with `NoSuchName`. -/
def dirDataUpdateEntry (st : FboState) (dir : KbfsPath) (name : String)
    (de : DirEntry) : Except EngineErr (List BlockInfo × FboState) :=
  if (alookup (dirListing st dir) name).isSome then
    .ok ([], setDirListing st dir (aupsert (dirListing st dir) name de))
  else
    .error {code := 110}

/-- Oracle outcomes for the rename path: the charged-to fetch, the
clock, the metadata root entry (for the root shadow), and the node
cache `Move` outcome. -/
structure RenameOracle where
  chargedToFetch : Except EngineErr Nat := .ok 0
  nowNanos : Int := 0
  rootDirEntry : DirEntry := {}
  moveErr : Option EngineErr := none
deriving DecidableEq, Repr

/-- `updateParentDirEntryLocked` (source lines 1012-1064): stamp the
parent directory's own entry (or the root shadow when the parent path
is invalid) with the new times and dirty it. -/
def updateParentDirEntryLocked (st : FboState) (dir : KbfsPath)
    (chargedToFetch : Except EngineErr Nat) (rootDirEntry : DirEntry)
    (now : Int) (setMtime setCtime : Bool) : Except EngineErr FboState :=
  match getChargedToLocked st chargedToFetch with
  | .error e => .error e
  | .ok (_, st1) =>
    let pp := dir.parentPath
    if pp.isValid then
      match dirDataLookup st1 pp dir.tailName with
      | .error e => .error e
      | .ok de =>
        let newDe := {de with
          mtime := if setMtime then now else de.mtime,
          ctime := if setCtime then now else de.ctime}
        match dirDataUpdateEntry st1 pp dir.tailName newDe with
        | .error e => .error e
        | .ok (unrefs, st2) => .ok (makeDirDirtyApply st2 pp.tailPointer unrefs)
    else
      -- If the parent isn't a valid path, update the root entry.
      let base :=
        match st1.dirtyRootDirEntry with
        | none => rootDirEntry
        | some de => de
      let newRoot := {base with
        mtime := if setMtime then now else base.mtime,
        ctime := if setCtime then now else base.ctime}
      .ok {st1 with dirtyRootDirEntry := some newRoot}

/-- `removeDirEntryInCacheLocked` (source lines 1111-1151): remove the
entry, fold in the removed directory's dirty unrefs, unlink the node,
update the parent entry, and dirty the directory.  On error the
already-run undos restore the state; only the error is surfaced here,
callers return their pre-call state. -/
def removeDirEntryInCacheLocked (st : FboState) (o : RenameOracle)
    (dir : KbfsPath) (oldName : String) (oldDe : DirEntry) :
    Except EngineErr FboState :=
  match getChargedToLocked st o.chargedToFetch with
  | .error e => .error e
  | .ok (_, st1) =>
    let rm := dirDataRemoveEntry st1 dir oldName
    let unrefs := rm.1 ++
      (if oldDe.typ = .Dir then
        (alookup st1.dirtyDirs oldDe.info.ptr).getD []
      else [])
    let st2 := rm.2
    let st3 :=
      match st2.nodeCache with
      | none => st2
      | some nc => {st2 with nodeCache := some (nc.unlink oldDe.Ref oldDe)}
    match updateParentDirEntryLocked st3 dir o.chargedToFetch
        o.rootDirEntry o.nowNanos true true with
    | .error e => .error e
    | .ok st4 => .ok (makeDirDirtyApply st4 dir.tailPointer unrefs)

/-- `addDirEntryInCacheLocked` (source lines 1066-1093). -/
def addDirEntryInCacheLocked (st : FboState) (o : RenameOracle)
    (dir : KbfsPath) (newName : String) (newDe : DirEntry) :
    Except EngineErr FboState :=
  match getChargedToLocked st o.chargedToFetch with
  | .error e => .error e
  | .ok (_, st1) =>
    match dirDataAddEntry st1 dir newName newDe with
    | .error e => .error e
    | .ok (unrefs, st2) =>
      match updateParentDirEntryLocked st2 dir o.chargedToFetch
          o.rootDirEntry o.nowNanos true true with
      | .error e => .error e
      | .ok st3 => .ok (makeDirDirtyApply st3 dir.tailPointer unrefs)

/-- `RenameDirEntryInCache` (source lines 1178-1246).  The identical
source/destination case returns a nil undo and nil error before any
mutation.  On an error in the non-noop sequence the accumulated undo
closures run, restoring the pre-call state (with the charged-to cache
retained, as on the engine); the returned undo closure is modelled as
an `Option Unit` tag. -/
def RenameDirEntryInCache (st : FboState) (o : RenameOracle)
    (oldParent : KbfsPath) (oldName : String) (newParent : KbfsPath)
    (newName : String) (newDe replacedDe : DirEntry) :
    (Option Unit × Option EngineErr) × FboState :=
  if newParent.tailPointer = oldParent.tailPointer ∧ oldName = newName then
    -- Noop
    ((none, none), st)
  else
    let stCharged :=
      match getChargedToLocked st o.chargedToFetch with
      | .error _ => st
      | .ok (_, st1) => st1
    let step1 :=
      if replacedDe.IsInitialized then
        removeDirEntryInCacheLocked st o newParent newName replacedDe
      else .ok st
    match step1 with
    | .error e => ((none, some e), stCharged)
    | .ok st1 =>
      match addDirEntryInCacheLocked st1 o newParent newName newDe with
      | .error e => ((none, some e), stCharged)
      | .ok st2 =>
        match removeDirEntryInCacheLocked st2 o oldParent oldName {} with
        | .error e => ((none, some e), stCharged)
        | .ok st3 =>
          match o.moveErr with
          | some e => ((none, some e), stCharged)
          | none =>
            let st4 :=
              match st3.nodeCache with
              | none => st3
              | some nc =>
                let ncMoved := nc.move newDe.Ref (nc.get newParent.tailRef) newName
                {st3 with nodeCache := some ncMoved}
            ((some (), none), st4)

/-- C8: a rename whose new parent tail pointer equals the old parent
tail pointer and whose new name equals the old name returns a nil undo
function and nil error, and leaves the entire engine state (dirty
directories, dirty files, node cache, directory contents) unchanged. -/
theorem RenameDirEntryInCache_noop (st : FboState) (o : RenameOracle)
    (oldParent : KbfsPath) (oldName : String) (newParent : KbfsPath)
    (newName : String) (newDe replacedDe : DirEntry)
    (hptr : newParent.tailPointer = oldParent.tailPointer)
    (hname : oldName = newName) :
    RenameDirEntryInCache st o oldParent oldName newParent newName
      newDe replacedDe = ((none, none), st) := by
  unfold RenameDirEntryInCache
  rw [if_pos ⟨hptr, hname⟩]

/-- Witness for C8 at a state with nontrivial contents on every
component the claim names. -/
theorem RenameDirEntryInCache_noop_witness :
    let p : BlockPointer := {id := 3, refNonce := 0, valid := true}
    let q : BlockPointer := {id := 7, refNonce := 0, valid := true}
    let parent : KbfsPath := ⟨[{ptr := p, name := "dir"}]⟩
    let nc0 : NodeCacheModel :=
      ⟨[{nodeId := 1, ref := p.Ref, pathNodes := [{ptr := p, name := "dir"}]}]⟩
    let st : FboState :=
      {dirtyFiles := [(q, {})], dirtyDirs := [(p, [])], dirContents := [(p, [("x", {})])], nodeCache := some nc0}
    RenameDirEntryInCache st {} parent "x" parent "x" {} {} =
      ((none, none), st) := by
  intro p q parent nc0 st
  exact RenameDirEntryInCache_noop st {} parent "x" parent "x" {} {} rfl rfl

/-! ## `FastForwardAllNodes` (C10) -/

/-- `filepath.Join` on the two-component case used by the
fast-forward tree builder. -/
def pathJoin (a b : String) : String :=
  if a = "" then b else a ++ "/" ++ b

/-- `path.String()` for the fast-forward prefix keys. -/
def pathString (p : KbfsPath) : String :=
  p.nodes.foldl (fun acc pn => pathJoin acc pn.name) ""

/-- Insert a child path-node under a prefix in the children map (a set
per prefix, as in the source's `map[string]map[pathNode]bool`). -/
def childrenMapInsert (m : List (String × List PathNode)) (key : String)
    (pn : PathNode) : List (String × List PathNode) :=
  let cur := (alookup m key).getD []
  aupsert m key (if cur.contains pn then cur else cur ++ [pn])

/-- Add one cached node's path to the children map (source lines
3437-3448): every non-root component is recorded under its parent
prefix. -/
def addPathToChildren (m0 : List (String × List PathNode)) (p : KbfsPath) :
    List (String × List PathNode) :=
  (p.nodes.foldl
    (fun (acc : List (String × List PathNode) × String) pn =>
      let m := if acc.2 = "" then acc.1 else childrenMapInsert acc.1 acc.2 pn
      (m, pathJoin acc.2 pn.name))
    (m0, "")).1

/-- `unlinkDuringFastForwardLocked` (source lines 3319-3335): unlink a
node that the new revision no longer lists, recording its last-known
dir entry (looked up through the cached dirty directory contents). -/
def unlinkDuringFastForwardLocked (st : FboState) (ref : BlockRef) :
    FboState :=
  match st.nodeCache with
  | none => st
  | some nc =>
    match nc.get ref with
    | none => st
    | some entry =>
      let oldPath : KbfsPath := ⟨entry.pathNodes⟩
      let de := (alookup (dirListing st oldPath.parentPath)
        oldPath.tailName).getD {}
      {st with nodeCache := some (nc.unlink ref de)}

/-- The node-cache effect of `updatePointer` (the prefetch hand-off to
the block retriever is an external side effect and is not modelled). -/
def ffUpdatePointer (st : FboState) (oldPtr newPtr : BlockPointer) :
    FboState :=
  match st.nodeCache with
  | none => st
  | some nc => {st with nodeCache := some (nc.updatePointer oldPtr.Ref newPtr)}

/-- A node change reported to observers: directory children updated, or
a whole-file invalidation `{Off: 0, Len: 0}`. -/
structure NodeChange where
  nodeId : Nat
  dirUpdated : List String := []
  fileUpdated : List WriteRange := []
deriving DecidableEq, Repr

mutual

/-- `fastForwardDirAndChildrenLocked` (source lines 3337-3399): walk
this directory's listing (supplied by the `getEntries` oracle standing
for the dir-data adapter read; its failure also covers the charged-to
fetch), fast-forward or unlink each cached child, recurse into child
directories, and drop this prefix from the children map.  `fuel` bounds
the recursion depth; callers pass more fuel than there are prefixes. -/
def fastForwardDirAndChildrenLocked (fuel : Nat) (st0 : FboState)
    (getEntries : BlockPointer → Except EngineErr (List (String × DirEntry)))
    (currDir : KbfsPath) (children : List (String × List PathNode)) :
    Except EngineErr
      ((List NodeChange × List Nat) × FboState ×
        List (String × List PathNode)) :=
  match fuel with
  | 0 => .error {code := 120}
  | fuel' + 1 =>
    match getEntries currDir.tailPointer with
    | .error e => .error e
    | .ok entries =>
      let pfx := pathString currDir
      let myChildren := (alookup children pfx).getD []
      match ffProcessChildren fuel' st0 getEntries entries children
          myChildren with
      | .error e => .error e
      | .ok (acc, st1, children1) => .ok (acc, st1, aerase children1 pfx)
termination_by (fuel, 0)

/-- The per-child loop of `fastForwardDirAndChildrenLocked`. -/
def ffProcessChildren (fuel : Nat) (st : FboState)
    (getEntries : BlockPointer → Except EngineErr (List (String × DirEntry)))
    (entries : List (String × DirEntry))
    (children : List (String × List PathNode)) (cs : List PathNode) :
    Except EngineErr
      ((List NodeChange × List Nat) × FboState ×
        List (String × List PathNode)) :=
  match cs with
  | [] => .ok (([], []), st, children)
  | child :: rest =>
    match alookup entries child.name with
    | none =>
      let st1 := unlinkDuringFastForwardLocked st child.ptr.Ref
      ffProcessChildren fuel st1 getEntries entries children rest
    | some entry =>
      let st1 := ffUpdatePointer st child.ptr entry.info.ptr
      let node :=
        match st1.nodeCache with
        | none => none
        | some nc => nc.get entry.info.ptr.Ref
      if entry.typ = .Dir then
        let newPath : KbfsPath :=
          match node with
          | some e => ⟨e.pathNodes⟩
          | none => ⟨[]⟩
        let dirAcc : List NodeChange × List Nat :=
          match node with
          | some e =>
            ([{nodeId := e.nodeId, dirUpdated :=
              (((alookup children (pathString newPath)).getD []).map
                PathNode.name)}], [e.nodeId])
          | none => ([], [])
        match fastForwardDirAndChildrenLocked fuel st1 getEntries newPath
            children with
        | .error e => .error e
        | .ok ((chs, ids), st2, children2) =>
          match ffProcessChildren fuel st2 getEntries entries children2
              rest with
          | .error e => .error e
          | .ok ((chs2, ids2), st3, children3) =>
            .ok ((dirAcc.1 ++ chs ++ chs2, dirAcc.2 ++ ids ++ ids2),
              st3, children3)
      else
        let fileAcc : List NodeChange × List Nat :=
          match node with
          | some e =>
            ([{nodeId := e.nodeId,
               fileUpdated := [{off := 0, len := 0}]}], [e.nodeId])
          | none => ([], [])
        match ffProcessChildren fuel st1 getEntries entries children rest with
        | .error e => .error e
        | .ok ((chs2, ids2), st3, children3) =>
          .ok ((fileAcc.1 ++ chs2, fileAcc.2 ++ ids2), st3, children3)
termination_by (fuel, cs.length + 1)

end

/-- `FastForwardAllNodes` (source lines 3407-3487): nothing to do when
the node cache is nil or empty; otherwise build the prefix tree, update
the root pointer, descend, and unlink any leftover children. -/
def FastForwardAllNodes (st : FboState)
    (getEntries : BlockPointer → Except EngineErr (List (String × DirEntry)))
    (mdRootPtr : BlockPointer) :
    (List NodeChange × List Nat × Option EngineErr) × FboState :=
  match st.nodeCache with
  | none =>
    -- Nothing needs to be done!
    (([], [], none), st)
  | some nc =>
    if nc.entries.isEmpty then
      -- Nothing needs to be done!
      (([], [], none), st)
    else
      let paths := nc.entries.map NodeCacheModel.pathFromNode
      let children := paths.foldl addPathToChildren []
      let rootPath := paths.foldl
        (fun acc p => if p.nodes.length = 1 then p else acc) ⟨[]⟩
      if !rootPath.isValid then
        (([], [], some {code := 121}), st)
      else
        let rootOldPtr := ((rootPath.nodes.head?).map PathNode.ptr).getD {}
        let rootName := ((rootPath.nodes.head?).map PathNode.name).getD ""
        let st1 := ffUpdatePointer st rootOldPtr mdRootPtr
        let rootPath1 : KbfsPath := ⟨[{ptr := mdRootPtr, name := rootName}]⟩
        let rootNode :=
          match st1.nodeCache with
          | none => none
          | some nc1 => nc1.get mdRootPtr.Ref
        let rootAcc : List NodeChange × List Nat :=
          match rootNode with
          | some e =>
            ([{nodeId := e.nodeId, dirUpdated :=
              (((alookup children (pathString rootPath1)).getD []).map
                PathNode.name)}], [e.nodeId])
          | none => ([], [])
        match fastForwardDirAndChildrenLocked (children.length + 1) st1
            getEntries rootPath1 children with
        | .error e => (([], [], some e), st1)
        | .ok ((chs, ids), st2, children2) =>
          let st3 := children2.foldl
            (fun s kv => kv.2.foldl
              (fun s2 (pn : PathNode) =>
                unlinkDuringFastForwardLocked s2 pn.ptr.Ref) s) st2
          ((rootAcc.1 ++ chs, rootAcc.2 ++ ids, none), st3)

/-- C10: when the node cache is nil or holds no nodes,
`FastForwardAllNodes` returns empty change and affected-node lists and
no error, leaving the node cache and all other engine state
unchanged. -/
theorem FastForwardAllNodes_empty (st : FboState)
    (getEntries : BlockPointer → Except EngineErr (List (String × DirEntry)))
    (mdRootPtr : BlockPointer)
    (h : st.nodeCache = none ∨
      ∃ nc, st.nodeCache = some nc ∧ nc.entries = []) :
    FastForwardAllNodes st getEntries mdRootPtr = (([], [], none), st) := by
  unfold FastForwardAllNodes
  rcases h with h | ⟨nc, h, hnc⟩
  · rw [h]
  · rw [h]
    have : nc.entries.isEmpty = true := by
      rw [hnc]
      rfl
    simp only [this, reduceIte, if_pos]

/-- Witness for C10 at both trivial shapes: a nil node cache (over a
state with other dirty content) and an empty node cache. -/
theorem FastForwardAllNodes_empty_witness :
    let p : BlockPointer := {id := 5, refNonce := 0, valid := true}
    let st1 : FboState := {dirtyDirs := [(p, [])], nodeCache := none}
    let st2 : FboState := {nodeCache := some ⟨[]⟩}
    FastForwardAllNodes st1 (fun _ => .ok []) p = (([], [], none), st1) ∧
    FastForwardAllNodes st2 (fun _ => .ok []) p = (([], [], none), st2) := by
  intro p st1 st2
  constructor
  · exact FastForwardAllNodes_empty st1 (fun _ => .ok []) p (Or.inl rfl)
  · exact FastForwardAllNodes_empty st2 (fun _ => .ok []) p
      (Or.inr ⟨⟨[]⟩, rfl, rfl⟩)

end KBFS
